import Mathlib

/-! go-electrum: the concurrent session layer.

A shallow embedding of `electrum/atomic.go` and `electrum/network.go`:
the guarded container `Atomic[T]`, the session `Client`, the reader loop
`listen`, the push registration `listenPush`, the multiplexer `request`
and `Shutdown`; of `ServerPeers` of `electrum/server.go`; and, modelled from
the spec because their code is not among the sources, of the checkpoint
validation of the block-header calls and of the scripthash subscription
table.

Conventions of the embedding.

* Every operation of `Atomic[T]` runs under the container's lock, so each
  is one atomic state transformer; the lock itself is not represented.
* A Go function that may panic returns in `Go`, which is `Except Panic`.
* The maps of the session are held by value: no map of the session has a
  second reference. Where a callback writes through a reference it is handed,
  the memory behind the reference is passed explicitly (`Atomic.ChangeMem`).
* `uint64` is `Nat` with an explicit `% 2^64` at the one place that adds.
* What the Go standard library or the remote side decides (the outcome of
  `json.Marshal`, of `json.Unmarshal`, of `SendMessage`, which case a
  `select` takes) is an explicit input of the definition that consults it.
-/

namespace Electrum

/-! ## Go runtime values -/

/-- Run-time panics that the embedded code can raise. -/
inductive Panic
  | closeOfClosedChannel
  | assignmentToEntryInNilMap
  | nilPointerDereference
  deriving DecidableEq, Repr

/-- A Go computation that returns or panics. -/
abbrev Go (α : Type) := Except Panic α

deriving instance DecidableEq for Except

/-- Byte slices, one natural number below 256 per byte. -/
abbrev Bytes := List Nat

/-- The protocol line terminator `nl = byte('\n')`. -/
def nl : Nat := 10

/-- Payload of `APIError`. -/
structure APIError where
  Code : Int
  Message : String
  deriving DecidableEq, Repr

/-- Error values seen by the session layer: the package-level sentinels of
`network.go`, the two sentinels of package `context`, `APIError`, the wrapped
decode failure built in `listen`, and errors made elsewhere (`encoding/json`,
the transport). -/
inductive Error
  | ErrServerConnected
  | ErrServerShutdown
  | ErrTimeout
  | ErrNotImplemented
  | ErrDeprecated
  | Canceled
  | DeadlineExceeded
  | api (e : APIError)
  | unmarshalReceived (cause : String)
  | json (cause : String)
  | transport (cause : String)
  deriving DecidableEq, Repr

/-- The text of `err.Error()` for the sentinel errors. -/
def Error.text : Error → String
  | .ErrServerConnected => "server is already connected"
  | .ErrServerShutdown => "server has shutdown"
  | .ErrTimeout => "request timeout"
  | .ErrNotImplemented => "RPC call is not implemented"
  | .ErrDeprecated => "RPC call has been deprecated"
  | .Canceled => "context canceled"
  | .DeadlineExceeded => "context deadline exceeded"
  | .api e => "code: " ++ toString e.Code ++ ", error: " ++ e.Message
  | .unmarshalReceived cause => "unmarshal received message failed: " ++ cause
  | .json cause => cause
  | .transport cause => cause

/-- The kinds of `reflect.Kind` that `IsNilOrZero` can meet. -/
inductive Kind
  | Invalid
  | Bool
  | Uint64
  | String
  | Struct
  | Ptr
  | Interface
  | Slice
  | Map
  | Chan
  | Func
  deriving DecidableEq, Repr

/-- A `reflect.Value` as far as `IsNilOrZero` inspects it: its kind and, for
a kind that can be nil, whether it is nil. -/
structure Value where
  kind : Kind
  isNil : Bool
  deriving DecidableEq, Repr

/-- What the embedding needs to know of a Go type `T`: the zero value
`*new(T)`, and how a `T` looks once converted to `any`. Only an interface
type has values that convert to the nil `any`. -/
class GoType (T : Type) where
  zero : T
  isNilInterface : T → Bool
  kind : T → Kind
  isNil : T → Bool

/-- Result of `reflect.ValueOf(v)`: the zero `Value`, of kind `Invalid`, for
the nil interface, and the concrete value otherwise. -/
def reflectValueOf {T : Type} [GoType T] (v : T) : Value :=
  if GoType.isNilInterface v then { kind := Kind.Invalid, isNil := false }
  else { kind := GoType.kind v, isNil := GoType.isNil v }

/-- Conversion of a `T` to `any`, kept typed: `none` is the nil `any`. -/
def toAny {T : Type} [GoType T] (v : T) : Option T :=
  if GoType.isNilInterface v then none else some v

/-! ## atomic.go -/

/-- The guarded container `Atomic[T]`; the mutex has no state of its own. -/
structure Atomic (T : Type) where
  val : T
  deriving DecidableEq, Repr

/-- `MakeAtomic`. -/
def MakeAtomic {T : Type} (val : T) : Atomic T :=
  { val := val }

/-- `Atomic.Get`: the projection applied to the held value. `A` stands for
the `any` result. -/
def Atomic.Get {T A : Type} (a : Atomic T) (f : T → Go (A × Bool)) : Go (A × Bool) :=
  f a.val

/-- `Atomic.Do`. -/
def Atomic.Do {T : Type} (a : Atomic T) (f : T → Go (Option Error)) : Go (Option Error) :=
  f a.val

/-- `Atomic.Change`: the container after the call, and the returned error.
The callback is a function of the held value alone, which covers callbacks
that write nothing through that value before they fail; callbacks that write
the memory behind a held reference are covered by `Atomic.ChangeMem`. -/
def Atomic.Change {T : Type} (a : Atomic T) (f : T → Go (T × Option Error)) :
    Go (Atomic T × Option Error) :=
  match f a.val with
  | .error p => .error p
  | .ok (val, err) =>
    match err with
    | some e => .ok (a, some e)
    | none => .ok ({ a with val := val }, none)

/-- `Atomic.Change` with the memory behind the held value made explicit. For a
`T` of reference kind (map, slice, pointer) the field `val` holds a reference,
and line 37 hands `f` that reference itself, not a copy: `f` receives the held
value and the memory `h` it refers into, and returns besides its two results
the memory as it leaves it. `Change` itself writes the field `val` only, and
only on a nil error. -/
def Atomic.ChangeMem {T H : Type} (a : Atomic T) (h : H)
    (f : T → H → Go ((T × Option Error) × H)) : Go ((Atomic T × Option Error) × H) :=
  match f a.val h with
  | .error p => .error p
  | .ok ((val, err), h1) =>
    match err with
    | some e => .ok ((a, some e), h1)
    | none => .ok (({ a with val := val }, none), h1)

/-- `Atomic.IsNilOrZero`. -/
def Atomic.IsNilOrZero {T : Type} [GoType T] (a : Atomic T) : Bool :=
  let v := reflectValueOf a.val
  if v.kind = Kind.Ptr ∨ v.kind = Kind.Interface ∨ v.kind = Kind.Slice ∨ v.kind = Kind.Map
      ∨ v.kind = Kind.Chan ∨ v.kind = Kind.Func then
    v.isNil
  else
    false

/-- `Atomic.Reset`. -/
def Atomic.Reset {T : Type} [GoType T] (a : Atomic T) : Atomic T :=
  { a with val := GoType.zero }

/-- The generic function `Get[T, R]`. -/
def Get {T R : Type} [GoType R] (a : Atomic T) (f : T → Go (R × Bool)) : Go (R × Bool) :=
  let embed : T → Go (Option R × Bool) := fun val =>
    match f val with
    | .error p => .error p
    | .ok (r, ok) => .ok (toAny r, ok)
  match a.Get embed with
  | .error p => .error p
  | .ok (result, ok) =>
    if !ok then
      .ok (GoType.zero, false)
    else
      -- `val, ok := result.(R)` fails exactly on the nil `any`
      match result with
      | some val => .ok (val, true)
      | none => .ok (GoType.zero, false)

/-! ## Maps, channels and the transport -/

/-- A Go map value: the nil map, or a table of entries with distinct keys. -/
inductive GoMap (K V : Type)
  | nil
  | mk (entries : List (K × V))
  deriving DecidableEq, Repr

/-- The entries of a map; the nil map has none. -/
def GoMap.entries {K V : Type} : GoMap K V → List (K × V)
  | .nil => []
  | .mk es => es

/-- The entry stored under a key, if any. -/
def GoMap.find {K V : Type} [DecidableEq K] (m : GoMap K V) (k : K) : Option V :=
  (m.entries.find? (fun e => decide (e.1 = k))).map (fun e => e.2)

/-- The comma-ok index expression `v, ok := m[k]`. -/
def GoMap.index {K V : Type} [DecidableEq K] [GoType V] (m : GoMap K V) (k : K) : V × Bool :=
  match m.find k with
  | some v => (v, true)
  | none => (GoType.zero, false)

/-- The assignment `m[k] = v`; it panics on the nil map. -/
def GoMap.assign {K V : Type} [DecidableEq K] (m : GoMap K V) (k : K) (v : V) : Go (GoMap K V) :=
  match m with
  | .nil => .error Panic.assignmentToEntryInNilMap
  | .mk es => .ok (.mk (es.filter (fun e => decide (e.1 ≠ k)) ++ [(k, v)]))

/-- The builtin `delete(m, k)`; a no-op on the nil map. -/
def GoMap.delete {K V : Type} [DecidableEq K] (m : GoMap K V) (k : K) : GoMap K V :=
  match m with
  | .nil => .nil
  | .mk es => .mk (es.filter (fun e => decide (e.1 ≠ k)))

instance {K V : Type} : GoType (GoMap K V) where
  zero := .nil
  isNilInterface := fun _ => false
  kind := fun _ => Kind.Map
  isNil := fun m => match m with
    | .nil => true
    | .mk _ => false

/-- A value of a map type as the run time holds it: the nil map, or the
address of a map object. -/
inductive MapRef
  | nil
  | obj (addr : Nat)
  deriving DecidableEq, Repr

/-- The map objects of type `map[string]int` in memory, by address. -/
abbrev MapMem := List (List (String × Nat))

/-- The map that a reference stands for in a memory. -/
def MapMem.read (h : MapMem) (m : MapRef) : GoMap String Nat :=
  match m with
  | .nil => GoMap.nil
  | .obj i => GoMap.mk (h.getD i [])

/-- The assignment `m[k] = v` through a reference: it writes the map object
in place, and panics on the nil map. -/
def MapMem.assign (h : MapMem) (m : MapRef) (k : String) (v : Nat) : Go MapMem :=
  match (MapMem.read h m).assign k v with
  | .error p => .error p
  | .ok m1 =>
    match m with
    | .nil => .ok h
    | .obj i => .ok (h.set i m1.entries)

/-- A channel value of type `chan *container`: nil, or a reference to the
channel made by the `id`-th `make`. -/
inductive Chan
  | nil
  | ref (id : Nat)
  deriving DecidableEq, Repr

instance : GoType Chan where
  zero := .nil
  isNilInterface := fun _ => false
  kind := fun _ => Kind.Chan
  isNil := fun c => decide (c = Chan.nil)

/-- Slices of channels; the nil slice is the empty list. -/
instance : GoType (List Chan) where
  zero := []
  isNilInterface := fun _ => false
  kind := fun _ => Kind.Slice
  isNil := fun l => l.isEmpty

/-- The struct `container`. -/
structure container where
  content : Bytes
  err : Option Error
  deriving DecidableEq, Repr

/-- A concrete value behind the interface `Transport`: which object it is,
the kind of its concrete type (`Ptr` for `*TCPTransport` and for the tests'
`*MockTransport`) and whether that concrete value is itself nil. -/
structure TransportImpl where
  handle : Nat
  kind : Kind
  isNil : Bool
  deriving DecidableEq, Repr

/-- A value of the interface type `Transport`. -/
inductive Transport
  | nil
  | impl (t : TransportImpl)
  deriving DecidableEq, Repr

instance : GoType Transport where
  zero := .nil
  isNilInterface := fun t => decide (t = Transport.nil)
  kind := fun t => match t with
    | .nil => Kind.Invalid
    | .impl i => i.kind
  isNil := fun t => match t with
    | .nil => false
    | .impl i => i.isNil

/-! ## network.go: the session -/

/-- The struct `Client`, followed by the part of the world it acts on: the
buffers of the channels made so far (each of capacity 1), every message
handed to `SendMessage`, the number of `Close` calls on the transport, and
the errors forwarded on `errorChan`. `quit` is true once `close(s.quit)`
has run. -/
structure Client where
  transport : Atomic Transport
  handlers : Atomic (GoMap Nat Chan)
  pushHandlers : Atomic (GoMap String (List Chan))
  quit : Bool
  nextID : Nat
  chans : List (List container)
  sent : List Bytes
  closeCalls : Nat
  errorChan : List Error
  deriving DecidableEq, Repr

/-- `NewClient`; the reader loop it starts is `Client.listen`. -/
def NewClient (transport : Transport) : Client :=
  { transport := MakeAtomic transport
    handlers := MakeAtomic (GoMap.mk [])
    pushHandlers := MakeAtomic (GoMap.mk [])
    quit := false
    nextID := 0
    chans := []
    sent := []
    closeCalls := 0
    errorChan := [] }

/-- `make(chan *container, 1)`: a fresh channel with an empty buffer. -/
def Client.makeChan (s : Client) : Client × Chan :=
  ({ s with chans := s.chans ++ [[]] }, Chan.ref s.chans.length)

/-- The buffer of a channel. -/
def Client.buffer (s : Client) : Chan → List container
  | .nil => []
  | .ref i => s.chans.getD i []

/-- The send `c <- r`: `none` when the send blocks (nil channel, or the one
buffer slot is taken). -/
def Client.chanSend (s : Client) (c : Chan) (r : container) : Option Client :=
  match c with
  | .nil => none
  | .ref i =>
    if i < s.chans.length ∧ (s.chans.getD i []).length < 1 then
      some { s with chans := s.chans.set i (s.chans.getD i [] ++ [r]) }
    else
      none

/-- The receive `<-c`: `none` when the buffer is empty. -/
def Client.chanRecv (s : Client) (c : Chan) : Option (container × Client) :=
  match c with
  | .nil => none
  | .ref i =>
    match s.chans.getD i [] with
    | [] => none
    | r :: rest => some (r, { s with chans := s.chans.set i rest })

/-- `Client.IsShutdown`. -/
def Client.IsShutdown (s : Client) : Bool :=
  s.quit

/-- `Client.Shutdown`. -/
def Client.Shutdown (s : Client) : Go Client :=
  -- close(s.quit)
  if s.quit then
    .error Panic.closeOfClosedChannel
  else
    let s1 := { s with quit := true }
    -- s.transport.Do(func(val) { if val != nil { val.Close() }; return nil })
    let s2 := match s1.transport.val with
      | .nil => s1
      | .impl _ => { s1 with closeCalls := s1.closeCalls + 1 }
    .ok { s2 with
      transport := s2.transport.Reset
      handlers := s2.handlers.Reset
      pushHandlers := s2.pushHandlers.Reset }

/-- `Client.listenPush`. -/
def Client.listenPush (s : Client) (method : String) : Go (Client × Chan) :=
  let (s1, c) := s.makeChan
  match s1.pushHandlers.Change (fun val =>
      match val.assign method ((val.index method).1 ++ [c]) with
      | .error p => .error p
      | .ok val1 => .ok (val1, none)) with
  | .error p => .error p
  | .ok (a, _) => .ok ({ s1 with pushHandlers := a }, c)

/-- The envelope struct `response`. -/
structure response where
  ID : Nat
  Method : String
  Error : Option APIError
  deriving DecidableEq, Repr

/-- An inbound frame together with what `json.Unmarshal(bytes, msg)` made of
it: the envelope as the decoder left it, and the decoder's error if any. -/
structure Frame where
  bytes : Bytes
  msg : response
  err : Option String
  deriving DecidableEq, Repr

/-- The `container` that `listen` builds for a frame (lines 180-191). -/
def listenResult (f : Frame) : container :=
  let result : container := { content := f.bytes, err := none }
  match f.err with
  | some cause => { result with err := some (Error.unmarshalReceived cause) }
  | none =>
    match f.msg.Error with
    | some e => { result with err := some (Error.api e) }
    | none => result

/-- The routing decision of `listen` for a frame (lines 193-222): the sends
`handler <- result` it goes on to perform, in order. -/
def Client.listenRoute (s : Client) (f : Frame) : Go (List (Chan × container)) :=
  let result := listenResult f
  if f.msg.Method.length > 0 then
    match Get s.pushHandlers (fun val => .ok (val.index f.msg.Method)) with
    | .error p => .error p
    | .ok (handlers, ok) =>
      if ok then .ok (handlers.map (fun handler => (handler, result))) else .ok []
  else
    match Get s.handlers (fun val =>
        let (c, ok) := val.index f.msg.ID
        if c = Chan.nil then .ok (Chan.nil, false) else .ok (c, ok)) with
    | .error p => .error p
    | .ok (c, ok) =>
      if ok then .ok [(c, result)] else .ok []

/-- Performs sends in order until one blocks; returns the state reached and
the sends not performed. -/
def Client.sendAll (s : Client) : List (Chan × container) → Client × List (Chan × container)
  | [] => (s, [])
  | (c, r) :: rest =>
    match s.chanSend c r with
    | none => (s, (c, r) :: rest)
    | some s1 => s1.sendAll rest

/-- What the reader loop's `select` receives from the transport. -/
inductive Inbound
  | error (e : Error)
  | frame (f : Frame)
  deriving DecidableEq, Repr

/-- State of the reader loop after an iteration. -/
inductive Loop
  | running
  | exited
  | blocked
  deriving DecidableEq, Repr

/-- One iteration of the loop of `Client.listen` (lines 166-224) that is
offered `inb` by the transport. An error is forwarded on `errorChan`, which
an outside observer is taken to drain. -/
def Client.listen (s : Client) (inb : Inbound) : Go (Client × Loop) :=
  if s.IsShutdown then
    .ok (s, Loop.exited)
  else if s.transport.IsNilOrZero then
    .ok (s, Loop.exited)
  else
    -- errors() and responses() call val.Errors() and val.Responses()
    match s.transport.val with
    | .nil => .error Panic.nilPointerDereference
    | .impl _ =>
      match inb with
      | .error e =>
        match ({ s with errorChan := s.errorChan ++ [e] } : Client).Shutdown with
        | .error p => .error p
        | .ok s1 => .ok (s1, Loop.running)
      | .frame f =>
        match s.listenRoute f with
        | .error p => .error p
        | .ok sends =>
          let (s1, rest) := s.sendAll sends
          .ok (s1, if rest = [] then Loop.running else Loop.blocked)

/-- What other goroutines do while one caller is inside `request`: the reader
loop handles something inbound, or somebody calls `Shutdown`. -/
inductive Event
  | inbound (i : Inbound)
  | shutdown
  deriving DecidableEq, Repr

/-- Runs events in order; once the reader loop is blocked in a send it
handles nothing further. -/
def Client.runEvents (s : Client) (stalled : Bool) : List Event → Go Client
  | [] => .ok s
  | .shutdown :: rest =>
    match s.Shutdown with
    | .error p => .error p
    | .ok s1 => s1.runEvents stalled rest
  | .inbound i :: rest =>
    if stalled then
      s.runEvents stalled rest
    else
      match s.listen i with
      | .error p => .error p
      | .ok (s1, st) => s1.runEvents (decide (st = Loop.blocked)) rest

/-- The `params []any` of a request, each value as its JSON text. -/
abbrev Params := List String

/-- The message struct `request`. -/
structure request where
  ID : Nat
  Method : String
  Params : Params
  deriving DecidableEq, Repr

/-- How the context made by `context.WithTimeout(ctx, 5*time.Second)` comes
to be done: its own 5 second timer fires, or the caller's context is
cancelled or passes its own deadline first. -/
inductive CtxDone
  | timer
  | parentCanceled
  | parentDeadline
  deriving DecidableEq, Repr

/-- The value of `ctx.Err()` once the context is done. -/
def CtxDone.Err : CtxDone → Error
  | .timer => Error.DeadlineExceeded
  | .parentCanceled => Error.Canceled
  | .parentDeadline => Error.DeadlineExceeded

/-- Everything outside the caller's control during one call of `request`. -/
structure ReqEnv where
  /-- Outcome of `json.Marshal(msg)`. -/
  marshal : request → Except Error Bytes
  /-- Activity of other goroutines between the shutdown check and the send. -/
  beforeSend : List Event
  /-- What `SendMessage` returns. -/
  sendErr : Option Error
  /-- Activity of other goroutines between the return of a failed
  `SendMessage` and the call of `Shutdown` that follows it. -/
  beforeShutdown : List Event
  /-- Activity of other goroutines between the send and the registration. -/
  beforeRegister : List Event
  /-- Activity of other goroutines while the caller waits in its `select`. -/
  whileWaiting : List Event
  /-- How the context of this call ends. -/
  ctx : CtxDone
  /-- Whether `ctx.Done()` is what the `select` takes when a response is
  buffered as well. -/
  ctxFirst : Bool
  /-- Outcome of `json.Unmarshal(resp.content, v)`. -/
  unmarshal : Bytes → Option Error

/-- What a call of `request` leaves behind: the session, the request ID it
allocated if it got that far, the returned error (`none` for nil) or a panic,
and the payload it decoded into the sink if it got that far. -/
structure Ret where
  state : Client
  id : Option Nat
  result : Go (Option Error)
  sink : Option Bytes
  deriving DecidableEq, Repr

/-- The call `atomic.AddUint64(&s.nextID, 1)`: the session and the new value. -/
def Client.addNextID (s : Client) : Client × Nat :=
  let id := (s.nextID + 1) % 2 ^ 64
  ({ s with nextID := id }, id)

/-- Lines 266-273 of `request`: hand the message to the transport; on a send
failure shut the session down. `SendMessage` and `Shutdown` are two calls:
`beforeShutdown` is what other goroutines do between them. -/
def Client.requestSend (s : Client) (bytes : Bytes) (sendErr : Option Error)
    (beforeShutdown : List Event) : Go (Client × Option Error) :=
  match s.transport.Do (fun val =>
      match val with
      | .nil => .error Panic.nilPointerDereference
      | .impl _ => .ok sendErr) with
  | .error p => .error p
  | .ok err =>
    let s1 := { s with sent := s.sent ++ [bytes] }
    match err with
    | some e =>
      match s1.runEvents false beforeShutdown with
      | .error p => .error p
      | .ok s2 =>
        match s2.Shutdown with
        | .error p => .error p
        | .ok s3 => .ok (s3, some e)
    | none => .ok (s1, none)

/-- Lines 277-292 of `request`: register the delivery channel. -/
def Client.requestRegister (s : Client) (id : Nat) (c : Chan) : Go (Client × Option Error) :=
  match s.handlers.Change (fun val =>
      if s.IsShutdown then
        .ok (val, some Error.ErrServerShutdown)
      else
        let val1 := match val with
          | .nil => GoMap.mk []
          | .mk es => GoMap.mk es
        match val1.assign id c with
        | .error p => .error p
        | .ok val2 => .ok (val2, none)) with
  | .error p => .error p
  | .ok (a, err) => .ok ({ s with handlers := a }, err)

/-- Lines 294-299 of `request`: the deferred function. -/
def Client.requestCleanup (s : Client) (id : Nat) : Client :=
  match s.handlers.Change (fun val =>
      -- delete(val, msg.ID)
      let _deleted := val.delete id
      -- return nil, nil
      .ok (GoMap.nil, none)) with
  | .error _ => s
  | .ok (a, _) => { s with handlers := a }

/-- Lines 301-306 of `request`: the `select` over the delivery channel and
`ctx.Done()`. With nothing buffered the caller waits until the context is
done, which the 5 second timer guarantees. -/
def Client.requestWait (s : Client) (c : Chan) (ctx : CtxDone) (ctxFirst : Bool) :
    Client × Except Error container :=
  match s.chanRecv c with
  | none => (s, .error ctx.Err)
  | some (resp, s1) =>
    if ctxFirst then (s, .error ctx.Err) else (s1, .ok resp)

/-- Lines 308-319 of `request`: what is returned for a received container,
and the payload decoded into the sink. -/
def requestFinish (resp : container) (v : Bool) (unmarshal : Bytes → Option Error) :
    Option Error × Option Bytes :=
  match resp.err with
  | some e => (some e, none)
  | none =>
    if v then
      match unmarshal resp.content with
      | some e => (some e, some resp.content)
      | none => (none, some resp.content)
    else
      (none, none)

/-- `Client.request`; `v` tells whether a result sink was supplied. -/
def Client.request (s : Client) (method : String) (params : Params) (v : Bool)
    (env : ReqEnv) : Ret :=
  -- select { case <-s.quit: return ErrServerShutdown; default: }
  if s.quit then
    { state := s, id := none, result := .ok (some Error.ErrServerShutdown), sink := none }
  else
    let (s1, id) := s.addNextID
    let msg : Electrum.request := { ID := id, Method := method, Params := params }
    match env.marshal msg with
    | .error e => { state := s1, id := some id, result := .ok (some e), sink := none }
    | .ok bytes0 =>
      let bytes := bytes0 ++ [nl]
      match s1.runEvents false env.beforeSend with
      | .error p => { state := s1, id := some id, result := .error p, sink := none }
      | .ok s2 =>
        match s2.requestSend bytes env.sendErr env.beforeShutdown with
        | .error p => { state := s2, id := some id, result := .error p, sink := none }
        | .ok (s3, some e) => { state := s3, id := some id, result := .ok (some e), sink := none }
        | .ok (s3, none) =>
          let (s4, c) := s3.makeChan
          match s4.runEvents false env.beforeRegister with
          | .error p => { state := s4, id := some id, result := .error p, sink := none }
          | .ok s5 =>
            match s5.requestRegister id c with
            | .error p => { state := s5, id := some id, result := .error p, sink := none }
            | .ok (s6, some e) =>
              { state := s6, id := some id, result := .ok (some e), sink := none }
            | .ok (s6, none) =>
              match s6.runEvents false env.whileWaiting with
              | .error p => { state := s6, id := some id, result := .error p, sink := none }
              | .ok s7 =>
                match s7.requestWait c env.ctx env.ctxFirst with
                | (s8, .error e) =>
                  { state := s8.requestCleanup id, id := some id, result := .ok (some e),
                    sink := none }
                | (s8, .ok resp) =>
                  let (err, sink) := requestFinish resp v env.unmarshal
                  { state := s8.requestCleanup id, id := some id, result := .ok err,
                    sink := sink }

/-! ## Histories of a session -/

/-- Registers listeners for the given methods, one `listenPush` after the
other; returns the channels in registration order. -/
def Client.listenPushAll (s : Client) : List String → Go (Client × List Chan)
  | [] => .ok (s, [])
  | m :: rest =>
    match s.listenPush m with
    | .error p => .error p
    | .ok (s1, c) =>
      match s1.listenPushAll rest with
      | .error p => .error p
      | .ok (s2, cs) => .ok (s2, c :: cs)

/-- The channels among `cs` that were registered for method `M`, when
`cs` are the channels returned for `methods`, in order. -/
def listenersOf (M : String) (methods : List String) (cs : List Chan) : List Chan :=
  ((methods.zip cs).filter (fun p => decide (p.1 = M))).map (fun p => p.2)

/-- One use of a session by some goroutine. -/
inductive Op
  | request (method : String) (params : Params) (v : Bool) (env : ReqEnv)
  | listenPush (method : String)
  | event (e : Event)

/-- The request IDs allocated along a history of uses of a session, in the
order of allocation; a panic ends the history. -/
def Client.allocated (s : Client) : List Op → List Nat
  | [] => []
  | .request method params v env :: rest =>
    let r := s.request method params v env
    let later := match r.result with
      | .ok _ => r.state.allocated rest
      | .error _ => []
    match r.id with
    | some id => id :: later
    | none => later
  | .listenPush method :: rest =>
    match s.listenPush method with
    | .ok (s1, _) => s1.allocated rest
    | .error _ => []
  | .event e :: rest =>
    match s.runEvents false [e] with
    | .ok s1 => s1.allocated rest
    | .error _ => []

/-! ## server.go: peer discovery -/

/-- A value that `encoding/json` decodes into an `interface{}`. -/
inductive JVal
  | null
  | bool (b : Bool)
  | number (text : String)
  | string (s : String)
  | array (items : List JVal)
  | object (fields : List (String × JVal))

/-- The struct `Peer`. -/
structure Peer where
  Addr : String
  Host : String
  Feats : List String
  deriving DecidableEq, Repr

/-- The inner loop of `ServerPeers` (lines 112-119) from index `i` on:
`feats[i] = feat` for each element that is a string, nothing for the others. -/
def featsLoop : Nat → List JVal → List String → List String
  | _, [], feats => feats
  | i, featI :: rest, feats =>
    match featI with
    | .string feat => featsLoop (i + 1) rest (feats.set i feat)
    | _ => featsLoop (i + 1) rest feats

/-- Lines 111-119 of `ServerPeers`: `feats := make([]string, len(featsI))`
followed by the inner loop. -/
def peerFeats (featsI : List JVal) : List String :=
  featsLoop 0 featsI (List.replicate featsI.length "")

/-- One iteration of the outer loop of `ServerPeers` (lines 91-125): the slice
`peers` after the entry `peer` has been looked at. -/
def peersStep (peers : List Peer) (peer : List JVal) : List Peer :=
  if peer.length ≠ 3 then
    peers
  else
    match peer[0]? with
    | some (JVal.string addr) =>
      match peer[1]? with
      | some (JVal.string host) =>
        match peer[2]? with
        | some (JVal.array featsI) =>
          peers ++ [{ Addr := addr, Host := host, Feats := peerFeats featsI }]
        | _ => peers
      | _ => peers
    | _ => peers

/-- Lines 90-126 of `ServerPeers`: the loop over `resp.Result`. -/
def convertPeers (result : List (List JVal)) : List Peer :=
  result.foldl peersStep []

/-- What a call of `ServerPeers` leaves behind. -/
structure PeersRet where
  state : Client
  peers : List Peer
  result : Go (Option Error)

/-- `Client.ServerPeers`. `decode` is what `json.Unmarshal` makes of a payload
as the field `Result` of the sink; without a decoded payload the field keeps
its zero value. -/
def Client.ServerPeers (s : Client) (env : ReqEnv) (decode : Bytes → List (List JVal)) :
    PeersRet :=
  let r := s.request "server.peers.subscribe" [] true env
  let result := (r.sink.map decode).getD []
  { state := r.state, peers := convertPeers result, result := r.result }

/-- The text that the claim reads off one feature: the string itself, and
the empty string for a feature that is not a string. -/
def featureText : JVal → String
  | .string feat => feat
  | _ => ""

/-- The peer that the claim reads off an entry: a 3-element list of two
strings and a list gives a peer, with each string feature at its own
position; an entry of any other shape gives none. -/
def peerOfEntry : List JVal → Option Peer
  | [.string addr, .string host, .array featsI] =>
    some { Addr := addr, Host := host, Feats := featsI.map featureText }
  | _ => none

/-! ## Parts of the RPC surface whose code is not among the sources -/

/-- Modelled from the spec: the error conditions of `block.go` and
`subscribe.go`, neither of which is among the sources. The spec names a
validation error for a checkpoint height that is not above the requested
heights (the tests call it `ErrCheckpointHeight`) and a not-found condition
of the lookups; every other error is the one `request` returned. -/
inductive CallError
  | ErrCheckpointHeight
  | notFound
  | session (e : Error)
  deriving DecidableEq, Repr

/-- What a wrapper call leaves behind: the session and the returned error. -/
structure CallRet where
  state : Client
  result : Go (Option CallError)
  deriving DecidableEq, Repr

/-- The result of `request` as the result of a wrapper. -/
def CallRet.ofRet (r : Ret) : CallRet :=
  { state := r.state
    result := match r.result with
      | .ok err => .ok (err.map CallError.session)
      | .error p => .error p }

/-- Modelled from the spec: `GetBlockHeader` of `block.go`, which is not among
the sources. Section 6: a block-header retrieval takes an optional checkpoint
height, and "callers must ensure any supplied checkpoint height lies strictly
above the highest header height being requested, else the call fails before
any network round-trip"; section 8: "a block-header request with
checkpointHeight ≤ requestedHeight (single) ... fails before any message is
sent". Otherwise the call is a thin wrapper over `request`; the method name
is the protocol's. -/
def Client.GetBlockHeader (s : Client) (height : Nat) (checkpointHeight : Option Nat)
    (env : ReqEnv) : CallRet :=
  match checkpointHeight with
  | some c =>
    if c ≤ height then
      { state := s, result := .ok (some CallError.ErrCheckpointHeight) }
    else
      CallRet.ofRet (s.request "blockchain.block.header" [toString height, toString c] true env)
  | none =>
    CallRet.ofRet (s.request "blockchain.block.header" [toString height] true env)

/-- Modelled from the spec: `GetBlockHeaders` of `block.go`, which is not among
the sources. The requested heights are `startHeight`, ..., `startHeight +
count - 1`. Section 6 asks that a supplied checkpoint height lie strictly
above the highest of them, "else the call fails before any network
round-trip"; section 8 names the case "checkpointHeight inside [startHeight,
startHeight+count)". The model fails whenever some requested height is at or
above the checkpoint, which covers both sentences. Heights are natural
numbers here; the spec says nothing on 32-bit overflow of the sum. -/
def Client.GetBlockHeaders (s : Client) (startHeight count : Nat)
    (checkpointHeight : Option Nat) (env : ReqEnv) : CallRet :=
  match checkpointHeight with
  | some c =>
    if 0 < count ∧ c < startHeight + count then
      { state := s, result := .ok (some CallError.ErrCheckpointHeight) }
    else
      CallRet.ofRet (s.request "blockchain.block.headers"
        [toString startHeight, toString count, toString c] true env)
  | none =>
    CallRet.ofRet (s.request "blockchain.block.headers"
      [toString startHeight, toString count] true env)

/-- Modelled from the spec: the scripthash subscription table of
`subscribe.go`, which is not among the sources. Section 3: a "bidirectional
mapping scriptHash ↔ address", "created when the manager is constructed (no
entries)". The two halves are kept as two key-value lists with distinct
keys. The shared notification channel plays no part in the table and is left
out. -/
structure ScripthashSubscription where
  addressOf : List (String × String)
  scripthashOf : List (String × String)
  deriving DecidableEq, Repr

/-- The value stored under a key in one half of the table. -/
def tableLookup (t : List (String × String)) (k : String) : Option String :=
  (t.find? (fun e => decide (e.1 = k))).map (fun e => e.2)

/-- One half of the table after storing `v` under `k`. -/
def tableInsert (t : List (String × String)) (k v : String) : List (String × String) :=
  t.filter (fun e => decide (e.1 ≠ k)) ++ [(k, v)]

/-- One half of the table after deleting the key `k`. -/
def tableErase (t : List (String × String)) (k : String) : List (String × String) :=
  t.filter (fun e => decide (e.1 ≠ k))

/-- Modelled from the spec: the table of a newly constructed manager. -/
def ScripthashSubscription.new : ScripthashSubscription :=
  { addressOf := [], scripthashOf := [] }

/-- What a call on the subscription manager leaves behind. -/
structure SubRet where
  state : Client
  sub : ScripthashSubscription
  result : Go (Option CallError)
  deriving DecidableEq, Repr

/-- Modelled from the spec: section 4.5, "`Add(scriptHash, address)`: issues
the subscribe RPC for `scriptHash`; on success inserts the bidirectional
mapping". -/
def ScripthashSubscription.Add (sub : ScripthashSubscription) (s : Client)
    (scripthash address : String) (env : ReqEnv) : SubRet :=
  let r := s.request "blockchain.scripthash.subscribe" [scripthash] true env
  match r.result with
  | .error p => { state := r.state, sub := sub, result := .error p }
  | .ok (some e) => { state := r.state, sub := sub, result := .ok (some (CallError.session e)) }
  | .ok none =>
    { state := r.state
      sub := { addressOf := tableInsert sub.addressOf scripthash address
               scripthashOf := tableInsert sub.scripthashOf address scripthash }
      result := .ok none }

/-- Modelled from the spec: the deletion of "both halves of the mapping" of a
script hash: its entry, and the entry of the address it was mapped to. -/
def ScripthashSubscription.forget (sub : ScripthashSubscription) (scripthash : String) :
    ScripthashSubscription :=
  { addressOf := tableErase sub.addressOf scripthash
    scripthashOf := match tableLookup sub.addressOf scripthash with
      | some address => tableErase sub.scripthashOf address
      | none => sub.scripthashOf }

/-- Modelled from the spec: section 4.5, "`Remove(scriptHash)` ...: issues the
unsubscribe RPC for the corresponding key, then deletes both halves of the
mapping; a failed unsubscribe RPC leaves the mapping unchanged and returns the
error". -/
def ScripthashSubscription.Remove (sub : ScripthashSubscription) (s : Client)
    (scripthash : String) (env : ReqEnv) : SubRet :=
  let r := s.request "blockchain.scripthash.unsubscribe" [scripthash] true env
  match r.result with
  | .error p => { state := r.state, sub := sub, result := .error p }
  | .ok (some e) => { state := r.state, sub := sub, result := .ok (some (CallError.session e)) }
  | .ok none => { state := r.state, sub := sub.forget scripthash, result := .ok none }

/-- Modelled from the spec: section 4.5, `RemoveAddress(address)`, which does
for the script hash of `address` what `Remove` does; an address without a
script hash is the not-found condition of `GetScripthash`. -/
def ScripthashSubscription.RemoveAddress (sub : ScripthashSubscription) (s : Client)
    (address : String) (env : ReqEnv) : SubRet :=
  match tableLookup sub.scripthashOf address with
  | none => { state := s, sub := sub, result := .ok (some CallError.notFound) }
  | some scripthash =>
    let r := s.request "blockchain.scripthash.unsubscribe" [scripthash] true env
    match r.result with
    | .error p => { state := r.state, sub := sub, result := .error p }
    | .ok (some e) =>
      { state := r.state, sub := sub, result := .ok (some (CallError.session e)) }
    | .ok none =>
      { state := r.state
        sub := { addressOf := tableErase sub.addressOf scripthash
                 scripthashOf := tableErase sub.scripthashOf address }
        result := .ok none }

/-- Modelled from the spec: section 4.5, `GetAddress(scriptHash)`, which
"fail[s] with a not-found condition if the key is absent". -/
def ScripthashSubscription.GetAddress (sub : ScripthashSubscription) (scripthash : String) :
    Except CallError String :=
  match tableLookup sub.addressOf scripthash with
  | some address => .ok address
  | none => .error CallError.notFound

/-- Modelled from the spec: section 4.5, `GetScripthash(address)`. -/
def ScripthashSubscription.GetScripthash (sub : ScripthashSubscription) (address : String) :
    Except CallError String :=
  match tableLookup sub.scripthashOf address with
  | some scripthash => .ok scripthash
  | none => .error CallError.notFound

/-- Modelled from the spec: section 4.5, "`SH()`: returns the current set of
subscribed script hashes". -/
def ScripthashSubscription.SH (sub : ScripthashSubscription) : List String :=
  sub.addressOf.map (fun e => e.1)

/-! ## Fixtures -/

/-- A live transport as the tests install it: a non-nil `*MockTransport`. -/
def mockTransport : Transport :=
  .impl { handle := 0, kind := Kind.Ptr, isNil := false }

/-- An environment in which marshalling and sending succeed, no other
goroutine acts, no response arrives and the 5 second timer ends the wait. -/
def quietEnv : ReqEnv where
  marshal := fun msg => .ok [msg.ID]
  beforeSend := []
  sendErr := none
  beforeShutdown := []
  beforeRegister := []
  whileWaiting := []
  ctx := CtxDone.timer
  ctxFirst := false
  unmarshal := fun _ => none

/-- A mutation that refuses the value 0 and otherwise increments. -/
def bumpUnlessZero : Nat → Go (Nat × Option Error) :=
  fun n => if n = 0 then .ok (7, some Error.ErrDeprecated) else .ok (n + 1, none)

/-- A session on which one request, with ID 1, has been sent and registered
and is waiting for its response on channel 0. -/
def oneInFlight : Client :=
  let (s1, id) := (NewClient mockTransport).addNextID
  match s1.requestSend [1, nl] none [] with
  | .error _ => s1
  | .ok (s2, _) =>
    let (s3, c) := s2.makeChan
    match s3.requestRegister id c with
    | .error _ => s3
    | .ok (s4, _) => s4

/-- A well-formed response frame for request `id` with the given raw bytes. -/
def responseFrame (id : Nat) (bytes : Bytes) : Frame :=
  { bytes := bytes, msg := { ID := id, Method := "", Error := none }, err := none }

/-- As `quietEnv`, but the reader loop delivers the response to request `id`
while the caller waits. -/
def answeredEnv (id : Nat) : ReqEnv :=
  { quietEnv with whileWaiting := [Event.inbound (Inbound.frame (responseFrame id [110]))] }

/-- As `quietEnv`, but `SendMessage` fails. -/
def brokenPipeEnv : ReqEnv :=
  { quietEnv with sendErr := some (Error.transport "broken pipe") }

/-- As `brokenPipeEnv`, and the reader loop receives the error of the broken
transport, and shuts the session down (line 178), after `SendMessage` has
failed and before `request` calls `Shutdown` (line 271). -/
def deadTransportEnv : ReqEnv :=
  { brokenPipeEnv with
    beforeShutdown := [Event.inbound (Inbound.error (Error.transport "broken pipe"))] }

/-- As `brokenPipeEnv`, and somebody else calls `Shutdown` after `SendMessage`
has failed and before `request` calls `Shutdown`: a second caller whose send
failed as well, or the user. -/
def raceShutdownEnv : ReqEnv :=
  { brokenPipeEnv with beforeShutdown := [Event.shutdown] }

/-- A session after `Shutdown`. -/
def shutDownSession : Client :=
  match (NewClient mockTransport).Shutdown with
  | .ok s => s
  | .error _ => NewClient mockTransport

/-- A notification frame for `method`. -/
def notificationFrame (method : String) (bytes : Bytes) : Frame :=
  { bytes := bytes, msg := { ID := 0, Method := method, Error := none }, err := none }

/-- A history of a session: an answered request, a listener registration, a
request that times out, a shutdown, and a request after it. -/
def sampleOps : List Op :=
  [Op.request "server.version" ["1.4"] true (answeredEnv 1),
   Op.listenPush "blockchain.headers.subscribe",
   Op.request "server.ping" [] false quietEnv,
   Op.event Event.shutdown,
   Op.request "server.ping" [] false quietEnv]

/-- As `quietEnv`, but somebody calls `Shutdown` while the caller waits. -/
def shutdownWhileWaitingEnv : ReqEnv :=
  { quietEnv with whileWaiting := [Event.shutdown] }

/-- The response frame by which the server refuses request `id`. -/
def refusalFrame (id : Nat) : Frame :=
  { bytes := [101]
    msg := { ID := id, Method := "", Error := some { Code := -32601, Message := "unknown method" } }
    err := none }

/-- As `quietEnv`, but the reader loop delivers the refusal of request `id`
while the caller waits. -/
def refusedEnv (id : Nat) : ReqEnv :=
  { quietEnv with whileWaiting := [Event.inbound (Inbound.frame (refusalFrame id))] }

/-- As `quietEnv`, but the refusal of request `id` arrives after the send and
before the registration of the delivery channel. -/
def earlyRefusalEnv (id : Nat) : ReqEnv :=
  { quietEnv with beforeRegister := [Event.inbound (Inbound.frame (refusalFrame id))] }

/-- The session `oneInFlight` after a second request, with ID 2, has been
sent, registered and answered, and has returned: request 1 is still waiting on
channel 0. -/
def afterOtherRequest : Client :=
  (oneInFlight.request "server.ping" [] false (answeredEnv 2)).state

/-- The callback
`func(val map[string]int) (map[string]int, error) { val["x"] = 1; return val, ErrDeprecated }`:
it writes through the value it is handed and then fails. -/
def writeThenFail : MapRef → MapMem → Go ((MapRef × Option Error) × MapMem) :=
  fun val h =>
    match MapMem.assign h val "x" 1 with
    | .error p => .error p
    | .ok h1 => .ok ((val, some Error.ErrDeprecated), h1)

/-- The callback
`func(val map[string]int) (map[string]int, error) { val["x"] = 1; return val, nil }`. -/
def writeThenCommit : MapRef → MapMem → Go ((MapRef × Option Error) × MapMem) :=
  fun val h =>
    match MapMem.assign h val "x" 1 with
    | .error p => .error p
    | .ok h1 => .ok ((val, none), h1)

/-- A frame such as `{"id":1,"method":7}`: `json.Unmarshal` stores the ID,
fails on the method with a type error and returns that error. -/
def typeErrorFrame : Frame :=
  { bytes := [123, 125]
    msg := { ID := 1, Method := "", Error := none }
    err := some "json: cannot unmarshal number into Go struct field response.method of type string" }

/-- A decoded peer list: the entry of the test, an entry that is too short,
and an entry whose feature list holds values that are not strings. -/
def samplePeers : List (List JVal) :=
  [[JVal.string "peer1", JVal.string "v1.4", JVal.array [JVal.string "p1"]],
   [JVal.string "peer2"],
   [JVal.string "peer3", JVal.string "v1.4",
    JVal.array [JVal.number "1", JVal.string "t50001", JVal.null]]]

/-- The projection `func(val Transport) (Transport, bool) { return val, true }`:
its result type is the interface type `Transport`. -/
def heldTransport : Transport → Go (Transport × Bool) :=
  fun val => .ok (val, true)

/-- A projection with a result of a concrete type: the channel registered
under ID 1 in a pending map, with the comma-ok flag of the index. -/
def pendingOne : GoMap Nat Chan → Go (Chan × Bool) :=
  fun val => .ok (val.index 1)

/-! ## Theorems -/

/-! ### What each step leaves untouched, and what it changes -/

/-- A `Shutdown` that returns ran on a live session and leaves the signal set, the three guarded values reset and everything else untouched. -/
theorem Shutdown_ok {s s1 : Client} (h : s.Shutdown = .ok s1) :
    s.quit = false ∧ s1.quit = true ∧ s1.nextID = s.nextID ∧ s1.handlers.val = GoMap.nil ∧
    s1.pushHandlers.val = GoMap.nil ∧ s1.transport.val = Transport.nil ∧ s1.chans = s.chans ∧
    s1.sent = s.sent := by
  unfold Client.Shutdown at h
  cases hq : s.quit
  · cases ht : s.transport.val <;>
      simp [hq, ht, Atomic.Reset, GoType.zero] at h <;> subst h <;> simp
  · simp [hq] at h

/-- Sends touch channel buffers only. -/
theorem sendAll_frame (l : List (Chan × container)) (s : Client) :
    (s.sendAll l).1.nextID = s.nextID ∧ (s.sendAll l).1.handlers = s.handlers ∧
    (s.sendAll l).1.pushHandlers = s.pushHandlers ∧ (s.sendAll l).1.quit = s.quit ∧
    (s.sendAll l).1.transport = s.transport ∧ (s.sendAll l).1.sent = s.sent := by
  induction l generalizing s with
  | nil => simp [Client.sendAll]
  | cons x rest ih =>
    obtain ⟨c, r⟩ := x
    simp only [Client.sendAll]
    cases hs : s.chanSend c r with
    | none => simp
    | some s1 =>
      simp only
      have h1 := ih s1
      cases c with
      | nil => simp [Client.chanSend] at hs
      | ref i =>
        simp only [Client.chanSend] at hs
        split_ifs at hs
        simp at hs
        subst hs
        simpa using h1

/-- An iteration of the reader loop keeps `nextID`, and keeps the pending map unless it resets it. -/
theorem listen_frame {s s1 : Client} {i : Inbound} {st : Loop} (h : s.listen i = .ok (s1, st)) :
    s1.nextID = s.nextID ∧ (s1.handlers = s.handlers ∨ s1.handlers.val = GoMap.nil) := by
  unfold Client.listen at h
  split_ifs at h with h1 h2
  · simp at h; obtain ⟨rfl, -⟩ := h; simp
  · simp at h; obtain ⟨rfl, -⟩ := h; simp
  · split at h
    · simp at h
    · split at h
      · split at h
        · simp at h
        · rename_i s2 hs
          simp at h
          obtain ⟨rfl, -⟩ := h
          have := Shutdown_ok hs
          simp_all
      · split at h
        · simp at h
        · rename_i sends hr
          simp at h
          obtain ⟨rfl, -⟩ := h
          have := sendAll_frame sends s
          simp_all


/-- The activity of other goroutines keeps `nextID`, and keeps the pending map unless it resets it. -/
theorem runEvents_frame (evs : List Event) (s s1 : Client) (b : Bool)
    (h : s.runEvents b evs = .ok s1) :
    s1.nextID = s.nextID ∧ (s1.handlers = s.handlers ∨ s1.handlers.val = GoMap.nil) := by
  induction evs generalizing s b with
  | nil =>
    simp [Client.runEvents] at h
    subst h
    simp
  | cons e rest ih =>
    cases e with
    | shutdown =>
      simp only [Client.runEvents] at h
      split at h
      · simp at h
      · rename_i s2 hs
        have h2 := Shutdown_ok hs
        have h3 := ih s2 b h
        rcases h3 with ⟨h4, h5 | h5⟩
        · exact ⟨by omega, Or.inr (by rw [h5]; exact h2.2.2.2.1)⟩
        · exact ⟨by omega, Or.inr h5⟩
    | inbound i =>
      simp only [Client.runEvents] at h
      split_ifs at h
      · exact ih s b h
      · split at h
        · simp at h
        · rename_i s2 st hl
          have h2 := listen_frame hl
          have h3 := ih s2 _ h
          rcases h3 with ⟨h4, h5 | h5⟩
          · rcases h2 with ⟨h6, h7 | h7⟩
            · exact ⟨by omega, Or.inl (by rw [h5, h7])⟩
            · exact ⟨by omega, Or.inr (by rw [h5]; exact h7)⟩
          · exact ⟨by omega, Or.inr h5⟩

/-- The send step returns what `SendMessage` returned; on success it keeps the pending map, on failure the session is shut down. -/
theorem requestSend_frame {s s1 : Client} {bytes : Bytes} {sendErr err : Option Error}
    {between : List Event} (h : s.requestSend bytes sendErr between = .ok (s1, err)) :
    s1.nextID = s.nextID ∧ err = sendErr ∧
    ((err = none ∧ s1.handlers = s.handlers ∧ s1.quit = s.quit) ∨
     (err ≠ none ∧ s1.handlers.val = GoMap.nil ∧ s1.quit = true)) := by
  unfold Client.requestSend at h
  simp only [Atomic.Do] at h
  split at h
  · simp at h
  · rename_i err1 hd
    cases ht : s.transport.val with
    | nil => simp [ht] at hd
    | impl t =>
      simp [ht] at hd
      subst hd
      cases sendErr with
      | none =>
        simp at h
        obtain ⟨rfl, rfl⟩ := h
        simp
      | some e =>
        simp only at h
        split at h
        · simp at h
        · rename_i s2 hev
          have hn := (runEvents_frame _ _ _ _ hev).1
          split at h
          · simp at h
          · rename_i s3 hs
            simp at h
            obtain ⟨rfl, rfl⟩ := h
            have := Shutdown_ok hs
            simp_all

/-- The registration step either refuses with `ErrServerShutdown` and changes nothing, or maps the ID to the channel. -/
theorem requestRegister_frame {s s1 : Client} {id : Nat} {c : Chan} {err : Option Error}
    (h : s.requestRegister id c = .ok (s1, err)) :
    s1.nextID = s.nextID ∧
    ((err = some Error.ErrServerShutdown ∧ s1 = s) ∨
     (err = none ∧ s1.handlers.val.find id = some c)) := by
  unfold Client.requestRegister at h
  simp only [Atomic.Change] at h
  cases hq : s.quit
  · cases hv : s.handlers.val with
    | nil =>
      simp [Client.IsShutdown, hq, hv, GoMap.assign] at h
      obtain ⟨rfl, rfl⟩ := h
      simp [GoMap.find, GoMap.entries]
    | mk es =>
      simp [Client.IsShutdown, hq, hv, GoMap.assign] at h
      obtain ⟨rfl, rfl⟩ := h
      simp [GoMap.find, GoMap.entries, List.find?_append]
  · simp [Client.IsShutdown, hq] at h
    obtain ⟨rfl, rfl⟩ := h
    cases s
    simp_all



/-- The deferred function leaves the nil map behind. -/
theorem requestCleanup_frame (s : Client) (id : Nat) :
    (s.requestCleanup id).nextID = s.nextID ∧ (s.requestCleanup id).handlers.val = GoMap.nil := by
  simp [Client.requestCleanup, Atomic.Change]

/-- The wait step touches channel buffers only. -/
theorem requestWait_frame (s : Client) (c : Chan) (ctx : CtxDone) (b : Bool) :
    (s.requestWait c ctx b).1.nextID = s.nextID ∧
    (s.requestWait c ctx b).1.handlers = s.handlers := by
  unfold Client.requestWait
  cases c with
  | nil => simp [Client.chanRecv]
  | ref i =>
    simp only [Client.chanRecv]
    split
    · simp
    · rename_i r s1 hr
      split at hr
      · simp at hr
      · simp at hr
        obtain ⟨-, rfl⟩ := hr
        split_ifs <;> simp

/-- Making a channel touches the channel heap only. -/
theorem makeChan_frame (s : Client) :
    s.makeChan.1.nextID = s.nextID ∧ s.makeChan.1.handlers = s.handlers := by
  simp [Client.makeChan]

/-- What a call of `request` does to the counter and to the pending map: the ID is allocated exactly when the shutdown check passes, the counter is bumped exactly then, and a call that returns hands back the pending map as it found it or as the nil map. -/
theorem request_frame (s : Client) (method : String) (params : Params) (v : Bool)
    (env : ReqEnv) :
    (s.request method params v env).id
      = (if s.quit then none else some ((s.nextID + 1) % 2 ^ 64)) ∧
    (s.request method params v env).state.nextID
      = (if s.quit then s.nextID else (s.nextID + 1) % 2 ^ 64) ∧
    (∀ err, (s.request method params v env).result = .ok err →
      (s.request method params v env).state.handlers = s.handlers ∨
      (s.request method params v env).state.handlers.val = GoMap.nil) := by
  unfold Client.request
  cases hq : s.quit
  · simp only [Bool.false_eq_true, if_false, Client.addNextID]
    split
    · exact ⟨rfl, rfl, fun _ _ => Or.inl rfl⟩
    · split
      · exact ⟨rfl, rfl, fun _ h => by simp at h⟩
      · rename_i s2 h2
        have f2 := runEvents_frame _ _ _ _ h2
        have n2 : s2.nextID = (s.nextID + 1) % 2 ^ 64 := f2.1
        have g2 : s2.handlers = s.handlers ∨ s2.handlers.val = GoMap.nil := f2.2
        split
        · exact ⟨rfl, n2, fun _ h => by simp at h⟩
        · rename_i s3 e h3
          have f3 := requestSend_frame h3
          refine ⟨rfl, f3.1.trans n2, fun _ _ => ?_⟩
          rcases f3.2.2 with ⟨h, -⟩ | ⟨-, h, -⟩
          · simp at h
          · exact Or.inr h
        · rename_i s3 h3
          have f3 := requestSend_frame h3
          have n3 : s3.nextID = (s.nextID + 1) % 2 ^ 64 := f3.1.trans n2
          have g3 : s3.handlers = s.handlers ∨ s3.handlers.val = GoMap.nil := by
            rcases f3.2.2 with ⟨-, h, -⟩ | ⟨h, -⟩
            · rcases g2 with g | g
              · exact Or.inl (h.trans g)
              · exact Or.inr (by rw [h]; exact g)
            · simp at h
          have f4 := makeChan_frame s3
          split
          · exact ⟨rfl, f4.1.trans n3, fun _ h => by simp at h⟩
          · rename_i s5 h5
            have f5 := runEvents_frame _ _ _ _ h5
            have n5 : s5.nextID = (s.nextID + 1) % 2 ^ 64 := f5.1.trans (f4.1.trans n3)
            have g5 : s5.handlers = s.handlers ∨ s5.handlers.val = GoMap.nil := by
              rcases f5.2 with h | h
              · rcases g3 with g | g
                · exact Or.inl (h.trans (f4.2.trans g))
                · exact Or.inr (by rw [h, f4.2]; exact g)
              · exact Or.inr h
            split
            · exact ⟨rfl, n5, fun _ h => by simp at h⟩
            · rename_i s6 e h6
              have f6 := requestRegister_frame h6
              refine ⟨rfl, f6.1.trans n5, fun _ _ => ?_⟩
              rcases f6.2 with ⟨-, h⟩ | ⟨h, -⟩
              · rw [h]
                exact g5
              · simp at h
            · rename_i s6 h6
              have f6 := requestRegister_frame h6
              have n6 : s6.nextID = (s.nextID + 1) % 2 ^ 64 := f6.1.trans n5
              split
              · exact ⟨rfl, n6, fun _ h => by simp at h⟩
              · rename_i s7 h7
                have f7 := runEvents_frame _ _ _ _ h7
                have f8 := requestWait_frame s7 (s3.makeChan).2 env.ctx env.ctxFirst
                split
                · rename_i s8 e h8
                  rw [h8] at f8
                  have f9 := requestCleanup_frame s8 ((s.nextID + 1) % 2 ^ 64)
                  exact ⟨rfl, f9.1.trans (f8.1.trans (f7.1.trans n6)), fun _ _ => Or.inr f9.2⟩
                · rename_i s8 resp h8
                  rw [h8] at f8
                  have f9 := requestCleanup_frame s8 ((s.nextID + 1) % 2 ^ 64)
                  exact ⟨rfl, f9.1.trans (f8.1.trans (f7.1.trans n6)), fun _ _ => Or.inr f9.2⟩
  · simp


/-- A frame with a method is sent to the channels listed under that method, in the order of the list. -/
theorem listenRoute_push (s : Client) (f : Frame) (hm : 0 < f.msg.Method.length) :
    s.listenRoute f
      = .ok ((s.pushHandlers.val.index f.msg.Method).1.map (fun c => (c, listenResult f))) := by
  unfold Client.listenRoute
  simp only [gt_iff_lt, hm, if_true, Get, Atomic.Get, toAny, GoType.isNilInterface]
  unfold GoMap.index
  cases s.pushHandlers.val.find f.msg.Method <;> simp [GoType.zero]

/-- A frame without a method is sent to the non-nil channel registered under its ID, if any. -/
theorem listenRoute_response (s : Client) (f : Frame) (hm : f.msg.Method = "") :
    (∀ c : Chan, s.handlers.val.find f.msg.ID = some c → c ≠ Chan.nil →
      s.listenRoute f = .ok [(c, listenResult f)]) ∧
    ((∀ c : Chan, s.handlers.val.find f.msg.ID = some c → c = Chan.nil) →
      s.listenRoute f = .ok []) := by
  have hlen : ¬ (f.msg.Method.length > 0) := by rw [hm]; decide
  constructor
  · intro c hc hnil
    unfold Client.listenRoute
    simp only [hlen, if_false, Get, Atomic.Get, toAny, GoType.isNilInterface, GoMap.index, hc]
    simp [hnil]
  · intro h
    unfold Client.listenRoute
    simp only [hlen, if_false, Get, Atomic.Get, toAny, GoType.isNilInterface, GoMap.index]
    cases hc : s.handlers.val.find f.msg.ID with
    | none => simp [GoType.zero]
    | some c =>
      have := h c hc
      subst this
      simp


/-- A send that does not block fills the one slot of its channel and leaves every other buffer alone. -/
theorem chanSend_buffer {s s1 : Client} {i : Nat} {r : container}
    (h : s.chanSend (Chan.ref i) r = some s1) :
    s.buffer (Chan.ref i) = [] ∧ s1.buffer (Chan.ref i) = [r] ∧
    (∀ c : Chan, c ≠ Chan.ref i → s1.buffer c = s.buffer c) ∧
    s1 = { s with chans := s.chans.set i [r] } := by
  simp only [Client.chanSend] at h
  split_ifs at h with hc
  obtain ⟨hi, hb⟩ := hc
  have hb0 : s.chans.getD i [] = [] := List.length_eq_zero.mp (by omega)
  simp only [Option.some.injEq] at h
  subst h
  rw [hb0]
  refine ⟨hb0, ?_, ?_, rfl⟩
  · simp [Client.buffer, List.getD_eq_getElem?_getD, hi]
  · intro c hc
    cases c with
    | nil => rfl
    | ref j =>
      have hji : i ≠ j := fun e => hc (by rw [e])
      simp [Client.buffer, List.getD_eq_getElem?_getD, List.getElem?_set_ne hji]

/-- On a live session the loop iteration performs the sends that the routing decided. -/
theorem listen_frame_live {s : Client} (f : Frame) (hq : s.quit = false)
    (hz : s.transport.IsNilOrZero = false) (ht : s.transport.val ≠ Transport.nil)
    {sends : List (Chan × container)} (hr : s.listenRoute f = .ok sends) :
    s.listen (Inbound.frame f)
      = .ok ((s.sendAll sends).1, if (s.sendAll sends).2 = [] then Loop.running else Loop.blocked) := by
  unfold Client.listen
  simp only [Client.IsShutdown, hq, hz, Bool.false_eq_true, if_false]
  cases hv : s.transport.val with
  | nil => exact absurd hv ht
  | impl t => simp [hr]


/-- Lookup after `m[k] = v`. -/
theorem find_assign {K V : Type} [DecidableEq K] (es : List (K × V)) (k j : K) (v : V) :
    (GoMap.mk (es.filter (fun e => decide (e.1 ≠ k)) ++ [(k, v)])).find j
      = if j = k then some v else (GoMap.mk es).find j := by
  by_cases h : j = k
  · subst h
    have hnone : (es.filter (fun e => decide (e.1 ≠ j))).find? (fun e => decide (e.1 = j))
        = none := by
      rw [List.find?_eq_none]
      intro e he
      simp only [List.mem_filter, decide_eq_true_eq] at he
      simpa using he.2
    simp [GoMap.find, GoMap.entries, List.find?_append, hnone]
  · have hkj : ¬ k = j := fun e => h e.symm
    have hp : (fun e : K × V => (!decide (e.1 = k) && decide (e.1 = j)))
        = (fun e => decide (e.1 = j)) := by
      funext e
      by_cases he : e.1 = j
      · simp [he, h]
      · simp [he]
    simp [GoMap.find, GoMap.entries, List.find?_append, List.find?_filter, h, List.find?_cons,
      hkj, hp]

/-- Registering a listener on a live session: the fresh channel is appended to the list of its method. -/
theorem listenPush_live {s : Client} {es : List (String × List Chan)} (m : String)
    (h : s.pushHandlers.val = GoMap.mk es) :
    s.listenPush m = .ok
      ({ s with
          chans := s.chans ++ [[]]
          pushHandlers := MakeAtomic (GoMap.mk (es.filter (fun e => decide (e.1 ≠ m)) ++
            [(m, ((GoMap.mk es).index m).1 ++ [Chan.ref s.chans.length])])) },
        Chan.ref s.chans.length) := by
  simp [Client.listenPush, Client.makeChan, Atomic.Change, h, GoMap.assign, MakeAtomic]

/-- Index after `m[k] = v`, for the push table. -/
theorem index_assign (es : List (String × List Chan)) (k j : String) (v : List Chan) :
    ((GoMap.mk (es.filter (fun e => decide (e.1 ≠ k)) ++ [(k, v)])).index j).1
      = if j = k then v else ((GoMap.mk es).index j).1 := by
  unfold GoMap.index
  rw [find_assign]
  by_cases h : j = k
  · simp [h]
  · simp [h]

/-- Registrations in a row on a live session: fresh consecutive channels, and each method's list grows by its own listeners in order. -/
theorem listenPushAll_live (methods : List String) (M : String) (s : Client)
    (es : List (String × List Chan)) (h : s.pushHandlers.val = GoMap.mk es) :
    ∃ (s1 : Client) (cs : List Chan) (es1 : List (String × List Chan)),
      s.listenPushAll methods = .ok (s1, cs) ∧
      cs = (List.range' s.chans.length methods.length).map Chan.ref ∧
      s1.chans = s.chans ++ List.replicate methods.length [] ∧
      s1.pushHandlers.val = GoMap.mk es1 ∧
      s1.quit = s.quit ∧ s1.transport = s.transport ∧ s1.handlers = s.handlers ∧
      s1.nextID = s.nextID ∧
      (s1.pushHandlers.val.index M).1
        = (s.pushHandlers.val.index M).1 ++ listenersOf M methods cs := by
  induction methods generalizing s es with
  | nil =>
    exact ⟨s, [], es, rfl, rfl, by simp, h, rfl, rfl, rfl, rfl, by simp [listenersOf]⟩
  | cons m rest ih =>
    have hp := listenPush_live m h
    obtain ⟨s1, cs, es1, h1, h2, h3, h4, h6, h7, h8, h9, h5⟩ :=
      ih ({ s with
          chans := s.chans ++ [[]]
          pushHandlers := MakeAtomic (GoMap.mk (es.filter (fun e => decide (e.1 ≠ m)) ++
            [(m, ((GoMap.mk es).index m).1 ++ [Chan.ref s.chans.length])])) }) _ rfl
    refine ⟨s1, Chan.ref s.chans.length :: cs, es1, ?_, ?_, ?_, h4, h6, h7, h8, h9, ?_⟩
    · simp only [Client.listenPushAll, hp, h1]
    · rw [h2]
      simp [List.range']
    · rw [h3]
      simp [List.replicate_succ]
    · rw [h5]
      simp only [MakeAtomic, index_assign, h]
      by_cases hM : M = m
      · subst hM
        simp [listenersOf, List.zip_cons_cons, List.filter_cons]
      · have hm : ¬ m = M := fun e => hM e.symm
        simp [listenersOf, List.zip_cons_cons, List.filter_cons, hM, hm]

/-- Sends to pairwise distinct channels with empty buffers all complete; each such buffer then holds the one value and no other buffer changes. -/
theorem sendAll_empty_buffers (L : List Chan) (s : Client) (r : container) (hnd : L.Nodup)
    (hb : ∀ c ∈ L, ∃ i, c = Chan.ref i ∧ i < s.chans.length ∧ s.chans.getD i [] = []) :
    (s.sendAll (L.map (fun c => (c, r)))).2 = [] ∧
    (∀ c ∈ L, (s.sendAll (L.map (fun c => (c, r)))).1.buffer c = [r]) ∧
    (∀ c, c ∉ L → (s.sendAll (L.map (fun c => (c, r)))).1.buffer c = s.buffer c) := by
  induction L generalizing s with
  | nil => simp [Client.sendAll]
  | cons c rest ih =>
    obtain ⟨i, rfl, hi, hbuf⟩ := hb _ (List.mem_cons_self _ _)
    have hnd1 := List.nodup_cons.mp hnd
    have hsend : s.chanSend (Chan.ref i) r = some { s with chans := s.chans.set i [r] } := by
      simp only [Client.chanSend]
      rw [hbuf]
      simp [hi]
    have hcs := chanSend_buffer hsend
    have hb1 : ∀ c ∈ rest, ∃ j, c = Chan.ref j ∧
        j < ({ s with chans := s.chans.set i [r] } : Client).chans.length ∧
        ({ s with chans := s.chans.set i [r] } : Client).chans.getD j [] = [] := by
      intro c hc
      obtain ⟨j, rfl, hj, hjb⟩ := hb _ (List.mem_cons_of_mem _ hc)
      have hne : Chan.ref j ≠ Chan.ref i := fun e => hnd1.1 (e ▸ hc)
      refine ⟨j, rfl, by simpa using hj, ?_⟩
      have hsame := hcs.2.2.1 (Chan.ref j) hne
      simp only [Client.buffer] at hsame
      show (s.chans.set i [r]).getD j [] = []
      rw [hsame]
      exact hjb
    obtain ⟨h1, h2, h3⟩ := ih _ hnd1.2 hb1
    simp only [List.map_cons, Client.sendAll, hsend]
    refine ⟨h1, ?_, ?_⟩
    · intro c hc
      rcases List.mem_cons.mp hc with rfl | hc
      · rw [h3 _ hnd1.1]
        exact hcs.2.1
      · exact h2 c hc
    · intro c hc
      have hc1 : c ≠ Chan.ref i := fun e => hc (e ▸ List.mem_cons_self _ _)
      have hc2 : c ∉ rest := fun e => hc (List.mem_cons_of_mem _ e)
      rw [h3 c hc2]
      exact hcs.2.2.1 c hc1

/-- The listeners of one method are a sublist of the channels registered. -/
theorem listenersOf_sublist (M : String) (methods : List String) (cs : List Chan)
    (h : cs.length = methods.length) : (listenersOf M methods cs).Sublist cs := by
  unfold listenersOf
  have h1 : (((methods.zip cs).filter (fun p => decide (p.1 = M))).map (fun p => p.2)).Sublist
      ((methods.zip cs).map (fun p => p.2)) := (List.filter_sublist _).map _
  have h2 : (methods.zip cs).map (fun p => p.2) = cs := by
    have := List.map_snd_zip methods cs (le_of_eq h)
    simpa using this
  rw [h2] at h1
  exact h1

/-- Registering a listener keeps `nextID`. -/
theorem listenPush_nextID {s s1 : Client} {m : String} {c : Chan}
    (h : s.listenPush m = .ok (s1, c)) : s1.nextID = s.nextID := by
  cases hv : s.pushHandlers.val with
  | nil => simp [Client.listenPush, Client.makeChan, Atomic.Change, hv, GoMap.assign] at h
  | mk es =>
    rw [listenPush_live m hv] at h
    simp only [Except.ok.injEq, Prod.mk.injEq] at h
    rw [← h.1]

/-- From any session, a history that does not wrap the counter allocates consecutive IDs starting above `nextID`. -/
theorem allocated_range (ops : List Op) (s : Client) (h : s.nextID + ops.length < 2 ^ 64) :
    ∃ k, k ≤ ops.length ∧ s.allocated ops = List.range' (s.nextID + 1) k := by
  induction ops generalizing s with
  | nil => exact ⟨0, le_refl _, rfl⟩
  | cons op rest ih =>
    simp only [List.length_cons] at h
    cases op with
    | request method params v env =>
      obtain ⟨hid, hn, -⟩ := request_frame s method params v env
      have hmod : (s.nextID + 1) % 2 ^ 64 = s.nextID + 1 := Nat.mod_eq_of_lt (by omega)
      simp only [Client.allocated]
      cases hq : s.quit
      · rw [hq] at hid hn
        simp only [Bool.false_eq_true, if_false, hmod] at hid hn
        rw [hid]
        cases hr : (s.request method params v env).result with
        | error p => exact ⟨1, by simp only [List.length_cons]; omega, by simp [List.range']⟩
        | ok e =>
          obtain ⟨k, hk, hk1⟩ := ih (s.request method params v env).state (by omega)
          refine ⟨k + 1, by simp only [List.length_cons]; omega, ?_⟩
          simp only [hk1, hn, List.range'_succ]
      · rw [hq] at hid hn
        simp only [if_true] at hid hn
        rw [hid]
        cases hr : (s.request method params v env).result with
        | error p => exact ⟨0, Nat.zero_le _, rfl⟩
        | ok e =>
          obtain ⟨k, hk, hk1⟩ := ih (s.request method params v env).state (by omega)
          exact ⟨k, by simp only [List.length_cons]; omega, by simp only [hk1, hn]⟩
    | listenPush method =>
      simp only [Client.allocated]
      split
      · rename_i s1 c hl
        have hn := listenPush_nextID hl
        obtain ⟨k, hk, hk1⟩ := ih s1 (by omega)
        exact ⟨k, by simp only [List.length_cons]; omega, by rw [hk1, hn]⟩
      · exact ⟨0, Nat.zero_le _, rfl⟩
    | event e =>
      simp only [Client.allocated]
      split
      · rename_i s1 hl
        have hn := (runEvents_frame _ _ _ _ hl).1
        obtain ⟨k, hk, hk1⟩ := ih s1 (by omega)
        exact ⟨k, by simp only [List.length_cons]; omega, by rw [hk1, hn]⟩
      · exact ⟨0, Nat.zero_le _, rfl⟩

/-- An ID above every pending ID is not pending. -/
theorem find_none_of_keys_le {m : GoMap Nat Chan} {n id : Nat}
    (h : ∀ e ∈ m.entries, e.1 ≤ n) (hid : n < id) : m.find id = none := by
  simp only [GoMap.find, Option.map_eq_none', List.find?_eq_none]
  intro e he
  have := h e he
  simp
  omega

/-! ### Steps of an answered request, peer conversion, the scripthash table -/

/-- The registration step on a session that is not shut down. -/
theorem requestRegister_live (s : Client) (id : Nat) (c : Chan) (hq : s.quit = false) :
    s.requestRegister id c = .ok
      ({ s with handlers := MakeAtomic (GoMap.mk
          (s.handlers.val.entries.filter (fun e => decide (e.1 ≠ id)) ++ [(id, c)])) }, none) := by
  cases hv : s.handlers.val <;>
    simp [Client.requestRegister, Atomic.Change, Client.IsShutdown, hq, hv, GoMap.assign,
      GoMap.entries, MakeAtomic]

/-- The send step on a session with a transport when `SendMessage` succeeds. -/
theorem requestSend_live (s : Client) (bytes : Bytes) (between : List Event)
    (ht : s.transport.val ≠ Transport.nil) :
    s.requestSend bytes none between = .ok ({ s with sent := s.sent ++ [bytes] }, none) := by
  cases h : s.transport.val with
  | nil => exact absurd h ht
  | impl t => simp [Client.requestSend, Atomic.Do, h]

/-- The buffer slot of the channel made last. -/
theorem getD_append_new (l : List (List container)) (x : List container) :
    (l ++ [x]).getD l.length [] = x := by
  simp [List.getD_eq_getElem?_getD]

/-- No activity of other goroutines. -/
theorem runEvents_nil (s : Client) (b : Bool) : s.runEvents b [] = .ok s := rfl

/-- The reader loop handling the response frame of a pending request whose
channel is empty: the container is put into that channel. -/
theorem runEvents_response (t : Client) (f : Frame) (n : Nat) (hq : t.quit = false)
    (hz : t.transport.IsNilOrZero = false) (ht : t.transport.val ≠ Transport.nil)
    (hm : f.msg.Method = "") (hfind : t.handlers.val.find f.msg.ID = some (Chan.ref n))
    (hn : n < t.chans.length) (hb : t.chans.getD n [] = []) :
    t.runEvents false [Event.inbound (Inbound.frame f)]
      = .ok { t with chans := t.chans.set n [listenResult f] } := by
  have hroute : t.listenRoute f = .ok [(Chan.ref n, listenResult f)] :=
    (listenRoute_response t f hm).1 _ hfind (by simp)
  have hsend : t.chanSend (Chan.ref n) (listenResult f)
      = some { t with chans := t.chans.set n [listenResult f] } := by
    simp only [Client.chanSend]
    rw [hb]
    simp [hn]
  simp only [Client.runEvents, Bool.false_eq_true, if_false]
  rw [listen_frame_live f hq hz ht hroute]
  simp [Client.sendAll, hsend]

/-- The wait step with a response buffered and the context not taken. -/
theorem requestWait_buffered (t : Client) (n : Nat) (r : container) (ctx : CtxDone)
    (h : t.chans.getD n [] = [r]) :
    t.requestWait (Chan.ref n) ctx false = ({ t with chans := t.chans.set n [] }, .ok r) := by
  simp only [Client.requestWait, Client.chanRecv]
  rw [h]
  simp

/-- The inner loop of `ServerPeers` writes the text of each feature at its own
index. -/
theorem featsLoop_eq (rest : List JVal) (pre : List String) :
    featsLoop pre.length rest (pre ++ List.replicate rest.length "")
      = pre ++ rest.map featureText := by
  induction rest generalizing pre with
  | nil => simp [featsLoop]
  | cons x rest ih =>
    have hs : ∀ feat : String,
        (pre ++ List.replicate (x :: rest).length "").set pre.length feat
          = (pre ++ [feat]) ++ List.replicate rest.length "" := by
      intro feat
      simp [List.set_append_right, List.replicate_succ]
    have hn : pre ++ List.replicate (x :: rest).length ""
        = (pre ++ [""]) ++ List.replicate rest.length "" := by
      simp [List.replicate_succ]
    have ih1 := fun feat : String => ih (pre ++ [feat])
    simp only [List.length_append, List.length_singleton] at ih1
    cases x with
    | string feat =>
      simp only [featsLoop, hs, ih1, featureText, List.map_cons]
      simp
    | null => simp only [featsLoop, hn, ih1, featureText, List.map_cons]; simp
    | bool b => simp only [featsLoop, hn, ih1, featureText, List.map_cons]; simp
    | number t => simp only [featsLoop, hn, ih1, featureText, List.map_cons]; simp
    | array l => simp only [featsLoop, hn, ih1, featureText, List.map_cons]; simp
    | object l => simp only [featsLoop, hn, ih1, featureText, List.map_cons]; simp

/-- The feature slice built for a peer. -/
theorem peerFeats_eq (featsI : List JVal) : peerFeats featsI = featsI.map featureText := by
  have := featsLoop_eq featsI []
  simpa [peerFeats] using this

/-- One iteration of the outer loop appends the peer of the entry, if the
entry has one. -/
theorem peersStep_eq (peers : List Peer) (peer : List JVal) :
    peersStep peers peer = peers ++ (peerOfEntry peer).toList := by
  match peer with
  | [] => simp [peersStep, peerOfEntry]
  | [a] => simp [peersStep, peerOfEntry]
  | [a, b] => simp [peersStep, peerOfEntry]
  | a :: b :: c :: d :: rest => simp [peersStep, peerOfEntry]
  | [a, b, c] =>
    cases a <;> cases b <;> cases c <;> simp [peersStep, peerOfEntry, peerFeats_eq]

/-- The outer loop from any slice built so far. -/
theorem foldl_peersStep (result : List (List JVal)) (peers : List Peer) :
    result.foldl peersStep peers = peers ++ result.filterMap peerOfEntry := by
  induction result generalizing peers with
  | nil => simp
  | cons e rest ih =>
    rw [List.foldl_cons, ih, peersStep_eq]
    cases h : peerOfEntry e <;> simp [List.filterMap_cons, h]

/-- Lookup after an insertion into one half of the table. -/
theorem tableLookup_insert (t : List (String × String)) (k j v : String) :
    tableLookup (tableInsert t k v) j = if j = k then some v else tableLookup t j :=
  find_assign t k j v

/-- A deleted key is not found. -/
theorem tableLookup_erase_self (t : List (String × String)) (k : String) :
    tableLookup (tableErase t k) k = none := by
  simp only [tableLookup, tableErase, Option.map_eq_none', List.find?_eq_none]
  intro e he
  simp only [List.mem_filter, decide_eq_true_eq] at he
  simpa using he.2

/-- A deleted key is not among the keys. -/
theorem not_mem_keys_erase (t : List (String × String)) (k : String) :
    k ∉ (tableErase t k).map (fun e => e.1) := by
  simp only [tableErase, List.mem_map, List.mem_filter, decide_eq_true_eq, not_exists, not_and]
  intro e he h
  exact he.2 h

/-- Deleting the only key leaves no entry. -/
theorem erase_only_key (t : List (String × String)) (k : String)
    (h : t.map (fun e => e.1) = [k]) : tableErase t k = [] := by
  match t, h with
  | [e], h =>
    simp only [List.map_cons, List.map_nil, List.cons.injEq, and_true] at h
    simp [tableErase, h]

/-- The table after a successful `Add`. -/
theorem Add_ok {sub : ScripthashSubscription} {s : Client} {sh addr : String} {env : ReqEnv}
    (h : (sub.Add s sh addr env).result = .ok none) :
    (sub.Add s sh addr env).sub
      = { addressOf := tableInsert sub.addressOf sh addr
          scripthashOf := tableInsert sub.scripthashOf addr sh } := by
  cases hr : (s.request "blockchain.scripthash.subscribe" [sh] true env).result with
  | error p => simp [ScripthashSubscription.Add, hr] at h
  | ok e =>
    cases e with
    | some e => simp [ScripthashSubscription.Add, hr] at h
    | none => simp [ScripthashSubscription.Add, hr]

/-- The table after a successful `Remove`. -/
theorem Remove_ok {sub : ScripthashSubscription} {s : Client} {sh : String} {env : ReqEnv}
    (h : (sub.Remove s sh env).result = .ok none) :
    (sub.Remove s sh env).sub = sub.forget sh := by
  cases hr : (s.request "blockchain.scripthash.unsubscribe" [sh] true env).result with
  | error p => simp [ScripthashSubscription.Remove, hr] at h
  | ok e =>
    cases e with
    | some e => simp [ScripthashSubscription.Remove, hr] at h
    | none => simp [ScripthashSubscription.Remove, hr]

/-- The table after a successful `RemoveAddress`. -/
theorem RemoveAddress_ok {sub : ScripthashSubscription} {s : Client} {addr : String}
    {env : ReqEnv} (h : (sub.RemoveAddress s addr env).result = .ok none) :
    ∃ sh : String, tableLookup sub.scripthashOf addr = some sh ∧
      (sub.RemoveAddress s addr env).sub
        = { addressOf := tableErase sub.addressOf sh
            scripthashOf := tableErase sub.scripthashOf addr } := by
  cases hsh : tableLookup sub.scripthashOf addr with
  | none => simp [ScripthashSubscription.RemoveAddress, hsh] at h
  | some sh =>
    refine ⟨sh, rfl, ?_⟩
    cases hr : (s.request "blockchain.scripthash.unsubscribe" [sh] true env).result with
    | error p => simp [ScripthashSubscription.RemoveAddress, hsh, hr] at h
    | ok e =>
      cases e with
      | some e => simp [ScripthashSubscription.RemoveAddress, hsh, hr] at h
      | none => simp [ScripthashSubscription.RemoveAddress, hsh, hr]

/-- Activity of other goroutines that ends with somebody's `Shutdown` panics
or leaves the shutdown signal set. -/
theorem runEvents_ends_shut (evs : List Event) (s : Client) (b : Bool) :
    (∃ p, s.runEvents b (evs ++ [Event.shutdown]) = .error p) ∨
    (∃ s1, s.runEvents b (evs ++ [Event.shutdown]) = .ok s1 ∧ s1.quit = true) := by
  induction evs generalizing s b with
  | nil =>
    simp only [List.nil_append, Client.runEvents]
    cases hs : s.Shutdown with
    | error p => exact Or.inl ⟨p, rfl⟩
    | ok s1 => exact Or.inr ⟨s1, rfl, (Shutdown_ok hs).2.1⟩
  | cons e rest ih =>
    cases e with
    | shutdown =>
      simp only [List.cons_append, Client.runEvents]
      cases hs : s.Shutdown with
      | error p => exact Or.inl ⟨p, rfl⟩
      | ok s1 => exact ih s1 b
    | inbound i =>
      simp only [List.cons_append, Client.runEvents]
      split_ifs
      · exact ih s b
      · cases hl : s.listen i with
        | error p => exact Or.inl ⟨p, rfl⟩
        | ok r => exact ih r.1 _

/-! ### The claims -/

/-- `Atomic.Change` with a callback that writes nothing through the value it
is handed: if `f` applied to the held value returns an error, `Change` returns
that same error and the held value is unchanged; if `f` returns a value and
nil, `Change` returns nil and holds that value. -/
theorem Atomic_Change_commits_or_keeps {T : Type} (a : Atomic T)
    (f : T → Go (T × Option Error)) :
    (∀ (w : T) (e : Error), f a.val = .ok (w, some e) → a.Change f = .ok (a, some e)) ∧
    (∀ w : T, f a.val = .ok (w, none) → a.Change f = .ok (MakeAtomic w, none)) := by
  constructor
  · intro w e h
    simp [Atomic.Change, h]
  · intro w h
    simp [Atomic.Change, h, MakeAtomic]

/-- A refused mutation of the number 0 leaves 0 and returns the error; an
accepted mutation of 4 stores 5. -/
theorem Atomic_Change_commits_or_keeps_witness :
    (MakeAtomic 0).Change bumpUnlessZero = .ok (MakeAtomic 0, some Error.ErrDeprecated) ∧
    (MakeAtomic 4).Change bumpUnlessZero = .ok (MakeAtomic 5, none) :=
  ⟨(Atomic_Change_commits_or_keeps (MakeAtomic 0) bumpUnlessZero).1 7 Error.ErrDeprecated rfl,
   (Atomic_Change_commits_or_keeps (MakeAtomic 4) bumpUnlessZero).2 5 rfl⟩

/-- C1, counterexample. The container holds the empty map at address 0. The
callback `writeThenFail` stores `"x": 1` in the map it is handed and returns an
error. `Change` returns that error and still holds the reference it held, but
the map behind it now has the entry: the held value read after the call is
`map[x:1]`, not the `map[]` it was before. -/
theorem Atomic_Change_keeps_writes_of_failed_callback :
    writeThenFail (MakeAtomic (MapRef.obj 0)).val [[]]
      = .ok ((MapRef.obj 0, some Error.ErrDeprecated), [[("x", 1)]]) ∧
    (MakeAtomic (MapRef.obj 0)).ChangeMem [[]] writeThenFail
      = .ok ((MakeAtomic (MapRef.obj 0), some Error.ErrDeprecated), [[("x", 1)]]) ∧
    MapMem.read [[]] (MakeAtomic (MapRef.obj 0)).val = GoMap.mk [] ∧
    ((MakeAtomic (MapRef.obj 0)).ChangeMem [[]] writeThenFail).map
        (fun r => MapMem.read r.2 r.1.1.val)
      = .ok (GoMap.mk [("x", 1)]) ∧
    ((MakeAtomic (MapRef.obj 0)).ChangeMem [[]] writeThenFail).map
        (fun r => MapMem.read r.2 r.1.1.val)
      ≠ .ok (MapMem.read [[]] (MakeAtomic (MapRef.obj 0)).val) := by
  refine ⟨by decide, by decide, by decide, by decide, by decide⟩

/-- C1, as amended. `Change` writes the held variable only when `f` returns no
error, and never touches the memory behind it: if `f` returns an error,
`Change` returns that same error, the variable holds what it held, and the
memory is as `f` left it; if `f` returns a value and nil, `Change` returns nil,
holds that value, and the memory is as `f` left it. For a callback that writes
nothing through its argument, a failure therefore leaves the container and the
memory exactly as they were, and the call agrees with `Atomic.Change`. -/
theorem Atomic_Change_assigns_only_on_success {T H : Type} (a : Atomic T) (h : H)
    (f : T → H → Go ((T × Option Error) × H)) :
    (∀ (w : T) (e : Error) (h1 : H), f a.val h = .ok ((w, some e), h1) →
      a.ChangeMem h f = .ok ((a, some e), h1)) ∧
    (∀ (w : T) (h1 : H), f a.val h = .ok ((w, none), h1) →
      a.ChangeMem h f = .ok ((MakeAtomic w, none), h1)) ∧
    (∀ (g : T → Go (T × Option Error)) (w : T) (e : Error), g a.val = .ok (w, some e) →
      a.ChangeMem h (fun v m => (g v).map (fun r => (r, m))) = .ok ((a, some e), h)) ∧
    (∀ (g : T → Go (T × Option Error)),
      a.ChangeMem h (fun v m => (g v).map (fun r => (r, m)))
        = (a.Change g).map (fun r => (r, h))) := by
  refine ⟨?_, ?_, ?_, ?_⟩
  · intro w e h1 hf
    simp [Atomic.ChangeMem, hf]
  · intro w h1 hf
    simp [Atomic.ChangeMem, hf, MakeAtomic]
  · intro g w e hg
    simp [Atomic.ChangeMem, hg, Except.map]
  · intro g
    simp only [Atomic.ChangeMem, Atomic.Change]
    cases hg : g a.val with
    | error p => rfl
    | ok r =>
      obtain ⟨w, err⟩ := r
      cases err <;> rfl

/-- C1 as amended, at concrete inputs: a callback that writes and fails on a
map that already has an entry; a callback that writes and succeeds; a callback
on a number that fails without writing. -/
theorem Atomic_Change_assigns_only_on_success_witness :
    (MakeAtomic (MapRef.obj 0)).ChangeMem [[("y", 2)]] writeThenFail
      = .ok ((MakeAtomic (MapRef.obj 0), some Error.ErrDeprecated), [[("y", 2), ("x", 1)]]) ∧
    (MakeAtomic (MapRef.obj 0)).ChangeMem [[("y", 2)]] writeThenCommit
      = .ok ((MakeAtomic (MapRef.obj 0), none), [[("y", 2), ("x", 1)]]) ∧
    (MakeAtomic 0).ChangeMem [[("y", 2)]] (fun v m => (bumpUnlessZero v).map (fun r => (r, m)))
      = .ok ((MakeAtomic 0, some Error.ErrDeprecated), [[("y", 2)]]) :=
  ⟨(Atomic_Change_assigns_only_on_success (MakeAtomic (MapRef.obj 0)) [[("y", 2)]]
      writeThenFail).1 (MapRef.obj 0) Error.ErrDeprecated [[("y", 2), ("x", 1)]] (by decide),
   (Atomic_Change_assigns_only_on_success (MakeAtomic (MapRef.obj 0)) [[("y", 2)]]
      writeThenCommit).2.1 (MapRef.obj 0) [[("y", 2), ("x", 1)]] (by decide),
   (Atomic_Change_assigns_only_on_success (MakeAtomic 0) [[("y", 2)]]
      (fun v m => (bumpUnlessZero v).map (fun r => (r, m)))).2.2.1
      bumpUnlessZero 7 Error.ErrDeprecated rfl⟩

/-- C2, the code at a failing input. The deferred function of `request`
returns the nil map, so for every session and every ID it leaves no pending
entry at all. On a session where request 1 is in flight on channel 0, a second
request (ID 2) that completes with its response wipes the entry of request 1,
and the response frame for ID 1 that arrives afterwards is routed nowhere. -/
theorem requestCleanup_wipes_other_entries :
    (∀ (s : Client) (id j : Nat), (s.requestCleanup id).handlers.val.find j = none) ∧
    oneInFlight.handlers.val.find 1 = some (Chan.ref 0) ∧
    (oneInFlight.request "server.ping" [] false (answeredEnv 2)).id = some 2 ∧
    (oneInFlight.request "server.ping" [] false (answeredEnv 2)).result = .ok none ∧
    (oneInFlight.request "server.ping" [] false (answeredEnv 2)).state.handlers.val.find 1
      = none ∧
    (oneInFlight.request "server.ping" [] false (answeredEnv 2)).state.listenRoute
      (responseFrame 1 [110]) = .ok [] := by
  refine ⟨?_, by decide, by decide, by decide, by decide, by decide⟩
  intro s id j
  simp [Client.requestCleanup, Atomic.Change, GoMap.find, GoMap.entries]

/-- C3. No leak: on a session whose pending IDs all come from its counter
(each at most `nextID`) and whose counter does not wrap, whenever a call of
`request` has allocated an ID and has returned (with nil or with any error),
that ID is not in the pending-request map afterwards; the condition on the
pending IDs holds again after the call. -/
theorem request_leaves_no_pending_entry (s : Client) (method : String) (params : Params)
    (v : Bool) (env : ReqEnv) (id : Nat) (err : Option Error)
    (hinv : ∀ e ∈ s.handlers.val.entries, e.1 ≤ s.nextID)
    (hno : s.nextID + 1 < 2 ^ 64)
    (hid : (s.request method params v env).id = some id)
    (hret : (s.request method params v env).result = .ok err) :
    (s.request method params v env).state.handlers.val.find id = none ∧
    (∀ e ∈ (s.request method params v env).state.handlers.val.entries,
      e.1 ≤ (s.request method params v env).state.nextID) := by
  obtain ⟨h1, h2, h3⟩ := request_frame s method params v env
  have hmod : (s.nextID + 1) % 2 ^ 64 = s.nextID + 1 := Nat.mod_eq_of_lt hno
  cases hq : s.quit
  · rw [hq] at h1 h2
    simp only [Bool.false_eq_true, if_false, hmod] at h1 h2
    rw [h1] at hid
    simp only [Option.some.injEq] at hid
    subst hid
    rcases h3 err hret with h | h
    · rw [h, h2]
      exact ⟨find_none_of_keys_le hinv (Nat.lt_succ_self _),
        fun e he => Nat.le_succ_of_le (hinv e he)⟩
    · rw [h]
      exact ⟨by simp [GoMap.find, GoMap.entries], by simp [GoMap.entries]⟩
  · rw [hq] at h1
    simp only [if_true] at h1
    rw [h1] at hid
    simp at hid

/-- C3, at a concrete input: with request 1 in flight, a second request gets
ID 2, is answered, returns nil, and ID 2 is not pending afterwards. -/
theorem request_leaves_no_pending_entry_witness :
    (oneInFlight.request "server.ping" [] false (answeredEnv 2)).id = some 2 ∧
    (oneInFlight.request "server.ping" [] false (answeredEnv 2)).result = .ok none ∧
    (oneInFlight.request "server.ping" [] false (answeredEnv 2)).state.handlers.val.find 2
      = none :=
  ⟨by decide, by decide,
   (request_leaves_no_pending_entry oneInFlight "server.ping" [] false (answeredEnv 2) 2 none
     (by decide) (by decide) (by decide) (by decide)).1⟩

/-- C4, the code at a failing input. `Shutdown` closes `quit` unguarded, so on
every session a second `Shutdown` panics with close of closed channel; the
same holds after the `Shutdown` that `request` runs on a send failure and
after the one the reader loop runs on a transport error. -/
theorem Shutdown_twice_panics :
    (∀ s : Client, (s.Shutdown >>= Client.Shutdown) = .error Panic.closeOfClosedChannel) ∧
    ((NewClient mockTransport).request "server.ping" [] false brokenPipeEnv).result
      = .ok (some (Error.transport "broken pipe")) ∧
    ((NewClient mockTransport).request "server.ping" [] false brokenPipeEnv).state.Shutdown
      = .error Panic.closeOfClosedChannel ∧
    (((NewClient mockTransport).listen (Inbound.error (Error.transport "EOF"))) >>=
      fun r => r.1.Shutdown) = .error Panic.closeOfClosedChannel := by
  refine ⟨?_, by decide, by decide, by decide⟩
  intro s
  cases hq : s.quit
  · cases ht : s.transport.val <;> simp [Client.Shutdown, hq, ht, bind, Except.bind]
  · simp [Client.Shutdown, hq, bind, Except.bind]

/-- C5. Post-shutdown fast-fail: on a session whose shutdown signal is set,
`request` returns `ErrServerShutdown`, allocates no request ID and leaves the
whole session as it was, so that nothing was handed to the transport and no
pending entry was registered. -/
theorem request_after_shutdown_fails_fast (s : Client) (method : String) (params : Params)
    (v : Bool) (env : ReqEnv) (hquit : s.IsShutdown = true) :
    (s.request method params v env).result = .ok (some Error.ErrServerShutdown) ∧
    (s.request method params v env).id = none ∧
    (s.request method params v env).sink = none ∧
    (s.request method params v env).state = s ∧
    (s.request method params v env).state.sent = s.sent ∧
    (s.request method params v env).state.nextID = s.nextID ∧
    (s.request method params v env).state.handlers = s.handlers := by
  have hq : s.quit = true := hquit
  simp [Client.request, hq]

/-- C5, at a concrete input: a request on a session that was shut down. -/
theorem request_after_shutdown_fails_fast_witness :
    shutDownSession.IsShutdown = true ∧
    (shutDownSession.request "server.ping" [] false quietEnv).result
      = .ok (some Error.ErrServerShutdown) ∧
    (shutDownSession.request "server.ping" [] false quietEnv).state = shutDownSession :=
  ⟨by decide,
   (request_after_shutdown_fails_fast shutDownSession "server.ping" [] false quietEnv
     (by decide)).1,
   (request_after_shutdown_fails_fast shutDownSession "server.ping" [] false quietEnv
     (by decide)).2.2.2.1⟩

/-- C6. Request IDs are fresh and monotonic: along every history of fewer than
2^64 uses of a new session (requests with any environment, listener
registrations, inbound traffic, shutdown), the IDs allocated are 1, 2, 3, ...
in order of allocation: the k-th allocation is k, each is strictly greater than
every earlier one, and no two are equal. -/
theorem request_ids_fresh_and_monotonic (t : Transport) (ops : List Op)
    (h : ops.length < 2 ^ 64) :
    (NewClient t).allocated ops = List.range' 1 ((NewClient t).allocated ops).length ∧
    (∀ (k : Nat) (hk : k < ((NewClient t).allocated ops).length),
      ((NewClient t).allocated ops).get ⟨k, hk⟩ = k + 1) ∧
    ((NewClient t).allocated ops).Pairwise (fun a b => a < b) ∧
    ((NewClient t).allocated ops).Nodup := by
  obtain ⟨k, -, hk1⟩ := allocated_range ops (NewClient t) (by simpa [NewClient] using h)
  have h0 : (NewClient t).nextID + 1 = 1 := rfl
  rw [h0] at hk1
  rw [hk1]
  refine ⟨by simp, ?_, List.pairwise_lt_range' 1 k, List.nodup_range' 1 k⟩
  intro j hj
  simp [List.getElem_range']
  omega

/-- C6, at a concrete input: the sample history allocates the IDs 1 and 2. -/
theorem request_ids_fresh_and_monotonic_witness :
    sampleOps.length < 2 ^ 64 ∧
    (NewClient mockTransport).allocated sampleOps = [1, 2] ∧
    (NewClient mockTransport).allocated sampleOps
      = List.range' 1 ((NewClient mockTransport).allocated sampleOps).length :=
  ⟨by decide, by decide,
   (request_ids_fresh_and_monotonic mockTransport sampleOps (by decide)).1⟩

/-- C7. Response routing: for a frame that decodes to an envelope with empty
method and ID `i`, the container built by the reader loop carries the raw frame
bytes; if a non-nil channel is registered under `i` the only send is that
container to that channel, and if none is, there is no send at all. On a live
session the iteration of the loop puts the container into the buffer of that
channel and changes no other buffer, and in the second case leaves the session
as it was. -/
theorem listen_routes_response (s : Client) (f : Frame) (hdec : f.err = none)
    (hm : f.msg.Method = "") :
    listenResult f = { content := f.bytes, err := f.msg.Error.map Error.api } ∧
    (∀ c : Chan, s.handlers.val.find f.msg.ID = some c → c ≠ Chan.nil →
      s.listenRoute f = .ok [(c, listenResult f)]) ∧
    ((∀ c : Chan, s.handlers.val.find f.msg.ID = some c → c = Chan.nil) →
      s.listenRoute f = .ok []) ∧
    (s.quit = false → s.transport.IsNilOrZero = false → s.transport.val ≠ Transport.nil →
      (∀ i : Nat, s.handlers.val.find f.msg.ID = some (Chan.ref i) → i < s.chans.length →
        s.buffer (Chan.ref i) = [] →
        ∃ s1 : Client, s.listen (Inbound.frame f) = .ok (s1, Loop.running) ∧
          s1.buffer (Chan.ref i) = [listenResult f] ∧
          (∀ c : Chan, c ≠ Chan.ref i → s1.buffer c = s.buffer c)) ∧
      ((∀ c : Chan, s.handlers.val.find f.msg.ID = some c → c = Chan.nil) →
        s.listen (Inbound.frame f) = .ok (s, Loop.running))) := by
  have hres : listenResult f = { content := f.bytes, err := f.msg.Error.map Error.api } := by
    unfold listenResult
    rw [hdec]
    cases f.msg.Error <;> rfl
  obtain ⟨r1, r2⟩ := listenRoute_response s f hm
  refine ⟨hres, r1, r2, ?_⟩
  intro hq hz ht
  constructor
  · intro i hi hlen hbuf
    have hroute := r1 (Chan.ref i) hi (by simp)
    have hsend : s.chanSend (Chan.ref i) (listenResult f)
        = some { s with chans := s.chans.set i [listenResult f] } := by
      simp only [Client.buffer] at hbuf
      simp only [Client.chanSend]
      rw [hbuf]
      simp [hlen]
    have hcs := chanSend_buffer hsend
    refine ⟨_, ?_, hcs.2.1, hcs.2.2.1⟩
    rw [listen_frame_live f hq hz ht hroute]
    simp [Client.sendAll, hsend]
  · intro h
    rw [listen_frame_live f hq hz ht (r2 h)]
    simp [Client.sendAll]

/-- C7, at a concrete input: the response frame for the request in flight is
sent to channel 0 and to nothing else. -/
theorem listen_routes_response_witness :
    oneInFlight.listenRoute (responseFrame 1 [110])
      = .ok [(Chan.ref 0, listenResult (responseFrame 1 [110]))] :=
  (listen_routes_response oneInFlight (responseFrame 1 [110]) rfl rfl).2.1 (Chan.ref 0)
    (by decide) (by decide)

/-- C8. Fan-out order: on a live session (push table not reset), registering
listeners for `methods` in order succeeds and returns fresh, pairwise distinct
channels; a frame with non-empty method `M` is then sent to the listeners that
`M` already had followed by the new listeners of `M` in registration order,
each exactly once, and to nothing else. What is sent is the container built
from the frame: it holds the raw frame bytes, and for a frame that decoded it
holds the error object of the envelope if there is one and no error otherwise.
If `M` had no listener before and the reader loop is running, one iteration
puts that container into the buffer of every listener of `M` and changes no
other buffer, so no listener of another method and no pending-request channel
receives it. -/
theorem listen_fans_out_in_registration_order (s : Client) (es : List (String × List Chan))
    (hlive : s.pushHandlers.val = GoMap.mk es) (methods : List String) (M : String)
    (hM : 0 < M.length) (f : Frame) (hf : f.msg.Method = M) :
    ∃ (s1 : Client) (cs : List Chan),
      s.listenPushAll methods = .ok (s1, cs) ∧
      cs = (List.range' s.chans.length methods.length).map Chan.ref ∧
      (listenersOf M methods cs).Nodup ∧
      s1.listenRoute f = .ok (((s.pushHandlers.val.index M).1 ++ listenersOf M methods cs).map
        (fun c => (c, listenResult f))) ∧
      (listenResult f).content = f.bytes ∧
      (f.err = none →
        listenResult f = { content := f.bytes, err := f.msg.Error.map Error.api }) ∧
      ((s.pushHandlers.val.index M).1 = [] → s.quit = false →
        s.transport.IsNilOrZero = false → s.transport.val ≠ Transport.nil →
        ∃ s2 : Client, s1.listen (Inbound.frame f) = .ok (s2, Loop.running) ∧
          (∀ c ∈ listenersOf M methods cs, s2.buffer c = [listenResult f]) ∧
          (∀ c, c ∉ listenersOf M methods cs → s2.buffer c = s1.buffer c)) := by
  obtain ⟨s1, cs, es1, h1, h2, h3, h4, h6, h7, h8, h9, h5⟩ :=
    listenPushAll_live methods M s es hlive
  have hlen : cs.length = methods.length := by rw [h2]; simp
  have hsub := listenersOf_sublist M methods cs hlen
  have hcsnd : cs.Nodup := by
    rw [h2]
    exact (List.nodup_range' _ _).map (fun a b e => by injection e)
  have hnd : (listenersOf M methods cs).Nodup := hsub.nodup hcsnd
  have hroute : s1.listenRoute f = .ok (((s.pushHandlers.val.index M).1 ++
      listenersOf M methods cs).map (fun c => (c, listenResult f))) := by
    have hm : 0 < f.msg.Method.length := by rw [hf]; exact hM
    rw [listenRoute_push s1 f hm, hf, h5]
  have hcontent : (listenResult f).content = f.bytes := by
    unfold listenResult
    cases f.err with
    | some cause => rfl
    | none => cases f.msg.Error <;> rfl
  have hres : f.err = none →
      listenResult f = { content := f.bytes, err := f.msg.Error.map Error.api } := by
    intro hdec
    unfold listenResult
    rw [hdec]
    cases f.msg.Error <;> rfl
  refine ⟨s1, cs, h1, h2, hnd, hroute, hcontent, hres, ?_⟩
  intro hP hq hz ht
  rw [hP, List.nil_append] at hroute
  have hfresh : ∀ c ∈ listenersOf M methods cs, ∃ i, c = Chan.ref i ∧ i < s1.chans.length ∧
      s1.chans.getD i [] = [] := by
    intro c hc
    have hc1 : c ∈ cs := hsub.subset hc
    rw [h2, List.mem_map] at hc1
    obtain ⟨i, hi, rfl⟩ := hc1
    rw [List.mem_range'_1] at hi
    refine ⟨i, rfl, by rw [h3]; simp; omega, ?_⟩
    rw [h3, List.getD_eq_getElem?_getD, List.getElem?_append_right hi.1]
    rw [List.getElem?_replicate]
    split_ifs <;> rfl
  obtain ⟨g1, g2, g3⟩ := sendAll_empty_buffers _ s1 (listenResult f) hnd hfresh
  refine ⟨(s1.sendAll ((listenersOf M methods cs).map (fun c => (c, listenResult f)))).1, ?_,
    g2, g3⟩
  rw [listen_frame_live f (by rw [h6]; exact hq) (by rw [h7]; exact hz) (by rw [h7]; exact ht)
    hroute, g1]
  rfl

/-- C8, at a concrete input: two listeners for the headers subscription with a
listener for another method registered between them. -/
theorem listen_fans_out_in_registration_order_witness :
    ∃ (s1 : Client) (cs : List Chan),
      (NewClient mockTransport).listenPushAll
        ["blockchain.headers.subscribe", "blockchain.scripthash.subscribe",
         "blockchain.headers.subscribe"] = .ok (s1, cs) ∧
      s1.listenRoute (notificationFrame "blockchain.headers.subscribe" [123])
        = .ok [(Chan.ref 0, { content := [123], err := none }),
               (Chan.ref 2, { content := [123], err := none })] := by
  obtain ⟨s1, cs, h1, h2, -, h4, -, h6, -⟩ :=
    listen_fans_out_in_registration_order (NewClient mockTransport) [] rfl
      ["blockchain.headers.subscribe", "blockchain.scripthash.subscribe",
       "blockchain.headers.subscribe"]
      "blockchain.headers.subscribe" (by decide)
      (notificationFrame "blockchain.headers.subscribe" [123]) rfl
  refine ⟨s1, cs, h1, ?_⟩
  rw [h4, h2, h6 rfl]
  decide

/-- C9, the code at a failing input. For a guarded `Transport`,
`reflect.ValueOf` of the nil interface has kind `Invalid`, which is none of the
kinds `IsNilOrZero` tests: after `Reset`, and so after `Shutdown`, it returns
false. It also returns false for an installed transport whose concrete value
is not nil. -/
theorem IsNilOrZero_false_on_reset_transport :
    (∀ a : Atomic Transport, a.Reset.IsNilOrZero = false) ∧
    ((NewClient mockTransport).Shutdown).map (fun s => s.transport.IsNilOrZero) = .ok false ∧
    (∀ (h : Nat) (k : Kind),
      (MakeAtomic (Transport.impl { handle := h, kind := k, isNil := false })).IsNilOrZero
        = false) := by
  refine ⟨?_, by decide, ?_⟩
  · intro a
    simp [Atomic.Reset, Atomic.IsNilOrZero, reflectValueOf, GoType.zero, GoType.isNilInterface]
  · intro h k
    simp [MakeAtomic, Atomic.IsNilOrZero, reflectValueOf, GoType.isNilInterface, GoType.isNil]

/-- C10, the code at a failing input. On a new session with any installed
transport, a request that is sent and registered, gets no response and whose
own context stays live ends when the 5 second timer fires; `request` then
returns `ctx.Err()`, which is `context.DeadlineExceeded` with the text
"context deadline exceeded", and not `ErrTimeout`. -/
theorem request_timeout_returns_DeadlineExceeded (i : TransportImpl) (method : String)
    (params : Params) (v : Bool) :
    ((NewClient (Transport.impl i)).request method params v quietEnv).result
      = .ok (some Error.DeadlineExceeded) ∧
    ((NewClient (Transport.impl i)).request method params v quietEnv).state.sent
      = [[1, nl]] ∧
    ((NewClient (Transport.impl i)).request method params v quietEnv).id = some 1 ∧
    Error.DeadlineExceeded ≠ Error.ErrTimeout ∧
    Error.DeadlineExceeded.text ≠ "request timeout" ∧
    Error.ErrTimeout.text = "request timeout" := by
  refine ⟨?_, ?_, ?_, by decide, by decide, by decide⟩ <;> rfl

/-- C11, the code at a failing input. The wait `select` of `request` has the
cases `<-c` and `<-ctx.Done()` only, so what the wait step returns does not
depend on the shutdown signal. On a new session with any installed transport,
a request that is registered and waiting when somebody calls `Shutdown`
returns `context.DeadlineExceeded` once its 5 second timer fires, and not
`ErrServerShutdown`. -/
theorem request_wait_ignores_shutdown :
    (∀ (s : Client) (c : Chan) (ctx : CtxDone) (b : Bool),
      (({ s with quit := true } : Client).requestWait c ctx b).2 = (s.requestWait c ctx b).2) ∧
    (∀ (i : TransportImpl) (method : String) (params : Params) (v : Bool),
      ((NewClient (Transport.impl i)).request method params v shutdownWhileWaitingEnv).result
        = .ok (some Error.DeadlineExceeded) ∧
      ((NewClient (Transport.impl i)).request method params v
        shutdownWhileWaitingEnv).state.IsShutdown = true) ∧
    Error.DeadlineExceeded ≠ Error.ErrServerShutdown := by
  refine ⟨?_, ?_, by decide⟩
  · intro s c ctx b
    cases c with
    | nil => rfl
    | ref i =>
      simp only [Client.requestWait, Client.chanRecv]
      cases s.chans.getD i [] with
      | nil => rfl
      | cons r rest => cases b <;> rfl
  · intro i method params v
    exact ⟨rfl, rfl⟩

/-- A protocol error on a session where nothing else happens: on a live
session, when the response frame for the ID of a request decodes with an error
object and is what the wait step receives, `request` returns an `APIError` with
that code and message, decodes nothing into the sink, and leaves the session
running with its transport; the only channel made or touched is the request's
own. -/
theorem request_returns_protocol_error (s : Client) (method : String) (params : Params)
    (v : Bool) (env : ReqEnv) (bytes : Bytes) (f : Frame) (e : APIError)
    (hq : s.IsShutdown = false)
    (hz : s.transport.IsNilOrZero = false)
    (ht : s.transport.val ≠ Transport.nil)
    (hmar : env.marshal { ID := (s.nextID + 1) % 2 ^ 64, Method := method, Params := params }
      = .ok bytes)
    (hbs : env.beforeSend = []) (hsend : env.sendErr = none) (hbr : env.beforeRegister = [])
    (hw : env.whileWaiting = [Event.inbound (Inbound.frame f)])
    (hcf : env.ctxFirst = false)
    (hdec : f.err = none) (hm : f.msg.Method = "")
    (hid : f.msg.ID = (s.nextID + 1) % 2 ^ 64)
    (herr : f.msg.Error = some e) :
    (s.request method params v env).result = .ok (some (Error.api e)) ∧
    (s.request method params v env).id = some f.msg.ID ∧
    (s.request method params v env).sink = none ∧
    (s.request method params v env).state.IsShutdown = false ∧
    (s.request method params v env).state.transport = s.transport ∧
    (s.request method params v env).state.chans = s.chans ++ [[]] := by
  have hq1 : s.quit = false := hq
  have hres : listenResult f = { content := f.bytes, err := some (Error.api e) } := by
    simp [listenResult, hdec, herr]
  have hreq : s.request method params v env
      = { state := { s with
            nextID := (s.nextID + 1) % 2 ^ 64
            sent := s.sent ++ [bytes ++ [nl]]
            chans := s.chans ++ [[]]
            handlers := MakeAtomic GoMap.nil },
          id := some ((s.nextID + 1) % 2 ^ 64), result := .ok (some (Error.api e)),
          sink := none } := by
    simp only [Client.request, Client.addNextID]
    rw [if_neg (by simp [hq1])]
    simp only [hmar, hbs, hbr, hw, hsend, runEvents_nil]
    rw [requestSend_live]
    on_goal 2 => exact ht
    simp only [Client.makeChan]
    rw [requestRegister_live]
    on_goal 2 => exact hq1
    simp only []
    rw [runEvents_response _ f s.chans.length]
    on_goal 2 => exact hq1
    on_goal 2 => exact hz
    on_goal 2 => exact ht
    on_goal 2 => exact hm
    on_goal 2 => rw [hid]; show (GoMap.mk _).find _ = _; rw [find_assign]; simp
    on_goal 2 => simp
    on_goal 2 => exact getD_append_new _ _
    simp only [hcf]
    rw [requestWait_buffered _ _ (listenResult f)]
    on_goal 2 => simp [List.getD_eq_getElem?_getD]
    simp [requestFinish, hres, Client.requestCleanup, Atomic.Change, MakeAtomic,
      List.set_append_right]
  rw [hreq, hid]
  simp [Client.IsShutdown, hq1]

/-- The server refuses request 1 of a new session on which nothing else
happens. -/
theorem request_returns_protocol_error_witness :
    ((NewClient mockTransport).request "server.ping" [] true (refusedEnv 1)).result
      = .ok (some (Error.api { Code := -32601, Message := "unknown method" })) ∧
    ((NewClient mockTransport).request "server.ping" [] true (refusedEnv 1)).sink = none ∧
    ((NewClient mockTransport).request "server.ping" [] true (refusedEnv 1)).state.IsShutdown
      = false :=
  ⟨(request_returns_protocol_error (NewClient mockTransport) "server.ping" [] true
      (refusedEnv 1) [1] (refusalFrame 1) { Code := -32601, Message := "unknown method" }
      rfl (by decide) (by decide) rfl rfl rfl rfl rfl rfl rfl rfl (by decide) rfl).1,
   (request_returns_protocol_error (NewClient mockTransport) "server.ping" [] true
      (refusedEnv 1) [1] (refusalFrame 1) { Code := -32601, Message := "unknown method" }
      rfl (by decide) (by decide) rfl rfl rfl rfl rfl rfl rfl rfl (by decide) rfl).2.2.1,
   (request_returns_protocol_error (NewClient mockTransport) "server.ping" [] true
      (refusedEnv 1) [1] (refusalFrame 1) { Code := -32601, Message := "unknown method" }
      rfl (by decide) (by decide) rfl rfl rfl rfl rfl rfl rfl rfl (by decide) rfl).2.2.2.1⟩

/-- C12, the code at a failing input. Request 1 is sent, registered on channel
0 and waiting. A second request (ID 2) is answered and returns; its deferred
function leaves the nil map, as it does on every session and for every ID, so
a refusal for any request routes nowhere afterwards. The refusal of request 1
then arrives: the reader loop delivers it to nobody and runs on, and the wait
of request 1 ends with the context error, not with the `APIError`. The same
happens without a second request when the refusal arrives between the send and
the registration of request 1. With nothing else going on the `APIError` is
returned. -/
theorem protocol_error_is_lost_after_other_cleanup :
    oneInFlight.handlers.val.find 1 = some (Chan.ref 0) ∧
    oneInFlight.IsShutdown = false ∧
    (oneInFlight.request "server.ping" [] false (answeredEnv 2)).id = some 2 ∧
    (oneInFlight.request "server.ping" [] false (answeredEnv 2)).result = .ok none ∧
    (∀ (s : Client) (i j : Nat), (s.requestCleanup j).listenRoute (refusalFrame i) = .ok []) ∧
    afterOtherRequest.IsShutdown = false ∧
    afterOtherRequest.listen (Inbound.frame (refusalFrame 1))
      = .ok (afterOtherRequest, Loop.running) ∧
    afterOtherRequest.requestWait (Chan.ref 0) CtxDone.timer false
      = (afterOtherRequest, .error Error.DeadlineExceeded) ∧
    ((NewClient mockTransport).request "server.ping" [] true (earlyRefusalEnv 1)).id = some 1 ∧
    ((NewClient mockTransport).request "server.ping" [] true (earlyRefusalEnv 1)).result
      = .ok (some Error.DeadlineExceeded) ∧
    ((NewClient mockTransport).request "server.ping" [] true (refusedEnv 1)).result
      = .ok (some (Error.api { Code := -32601, Message := "unknown method" })) := by
  refine ⟨by decide, by decide, by decide, by decide, ?_, by decide, by decide, by decide,
    by decide, by decide, by decide⟩
  intro s i j
  simp [Client.requestCleanup, Atomic.Change, Client.listenRoute, refusalFrame, Get, Atomic.Get,
    GoMap.index, GoMap.find, GoMap.entries, toAny, GoType.isNilInterface, GoType.zero]

/-- Send failure on a session that nobody else shuts down: when `request`
reaches the send with a transport installed, `SendMessage` returns the error
`e`, and the signal is still clear when `request` calls `Shutdown`, then
`request` returns exactly `e`, the shutdown signal is set afterwards, and the
pending map has no entry, for this request's ID or any other. -/
theorem request_send_failure_is_fatal (s s2 s3 : Client) (method : String)
    (params : Params) (v : Bool) (env : ReqEnv) (bytes : Bytes) (e : Error)
    (hq : s.IsShutdown = false)
    (hmar : env.marshal { ID := (s.nextID + 1) % 2 ^ 64, Method := method, Params := params }
      = .ok bytes)
    (hev : s.addNextID.1.runEvents false env.beforeSend = .ok s2)
    (ht : s2.transport.val ≠ Transport.nil)
    (hsend : env.sendErr = some e)
    (hev2 : ({ s2 with sent := s2.sent ++ [bytes ++ [nl]] } : Client).runEvents false
      env.beforeShutdown = .ok s3)
    (hq3 : s3.IsShutdown = false) :
    (s.request method params v env).result = .ok (some e) ∧
    (s.request method params v env).id = some ((s.nextID + 1) % 2 ^ 64) ∧
    (s.request method params v env).state.IsShutdown = true ∧
    (s.request method params v env).state.sent = s3.sent ∧
    (∀ j : Nat, (s.request method params v env).state.handlers.val.find j = none) := by
  have hq1 : s.quit = false := hq
  have hq4 : s3.quit = false := hq3
  have hev1 : ({ s with nextID := (s.nextID + 1) % 2 ^ 64 } : Client).runEvents false
      env.beforeSend = .ok s2 := hev
  obtain ⟨t, ht1⟩ : ∃ t, s2.transport.val = Transport.impl t := by
    cases h : s2.transport.val with
    | nil => exact absurd h ht
    | impl t => exact ⟨t, rfl⟩
  obtain ⟨s4, hs4⟩ : ∃ s4, s3.Shutdown = .ok s4 := by
    cases h3 : s3.transport.val <;> simp [Client.Shutdown, hq4, h3]
  have hok := Shutdown_ok hs4
  have hsd : s2.requestSend (bytes ++ [nl]) (some e) env.beforeShutdown = .ok (s4, some e) := by
    simp only [Client.requestSend, Atomic.Do, ht1, hev2, hs4]
  have hreq : s.request method params v env
      = { state := s4, id := some ((s.nextID + 1) % 2 ^ 64), result := .ok (some e),
          sink := none } := by
    simp only [Client.request, Client.addNextID]
    rw [if_neg (by simp [hq1])]
    simp only [hmar, hev1, hsend, hsd]
  rw [hreq]
  refine ⟨rfl, rfl, hok.2.1, hok.2.2.2.2.2.2.2, ?_⟩
  intro j
  show s4.handlers.val.find j = none
  rw [hok.2.2.2.1]
  rfl

/-- The first request of a new session meets a broken pipe while nobody else
acts on the session. -/
theorem request_send_failure_is_fatal_witness :
    ((NewClient mockTransport).request "server.ping" [] false brokenPipeEnv).result
      = .ok (some (Error.transport "broken pipe")) ∧
    ((NewClient mockTransport).request "server.ping" [] false brokenPipeEnv).state.IsShutdown
      = true ∧
    ((NewClient mockTransport).request "server.ping" [] false
      brokenPipeEnv).state.handlers.val.find 1 = none :=
  ⟨(request_send_failure_is_fatal (NewClient mockTransport)
      (NewClient mockTransport).addNextID.1
      { (NewClient mockTransport).addNextID.1 with sent := [[1, nl]] }
      "server.ping" [] false brokenPipeEnv [1]
      (Error.transport "broken pipe") rfl rfl rfl (by decide) rfl rfl rfl).1,
   (request_send_failure_is_fatal (NewClient mockTransport)
      (NewClient mockTransport).addNextID.1
      { (NewClient mockTransport).addNextID.1 with sent := [[1, nl]] }
      "server.ping" [] false brokenPipeEnv [1]
      (Error.transport "broken pipe") rfl rfl rfl (by decide) rfl rfl rfl).2.2.1,
   (request_send_failure_is_fatal (NewClient mockTransport)
      (NewClient mockTransport).addNextID.1
      { (NewClient mockTransport).addNextID.1 with sent := [[1, nl]] }
      "server.ping" [] false brokenPipeEnv [1]
      (Error.transport "broken pipe") rfl rfl rfl (by decide) rfl rfl rfl).2.2.2.2 1⟩

/-- C13, the code at a failing input. `SendMessage` and the `Shutdown` that
follows its failure are two calls. When the transport breaks, the reader loop
receives the transport's error and shuts the session down as well; if it does
so between the two calls, the `close(s.quit)` of the `Shutdown` called by
`request` panics and `request` does not return the send error. The same holds
on every session whenever somebody's `Shutdown` is the last thing to happen
between the two calls. With nobody else acting, the send error is returned. -/
theorem request_send_failure_panics_on_second_shutdown :
    ((NewClient mockTransport).request "server.ping" [] false deadTransportEnv).id = some 1 ∧
    ((NewClient mockTransport).request "server.ping" [] false deadTransportEnv).result
      = .error Panic.closeOfClosedChannel ∧
    ((NewClient mockTransport).request "server.ping" [] false raceShutdownEnv).result
      = .error Panic.closeOfClosedChannel ∧
    (∀ (s : Client) (bytes : Bytes) (e : Error) (evs : List Event),
      ∃ p : Panic, s.requestSend bytes (some e) (evs ++ [Event.shutdown]) = .error p) ∧
    ((NewClient mockTransport).request "server.ping" [] false brokenPipeEnv).result
      = .ok (some (Error.transport "broken pipe")) := by
  refine ⟨by decide, by decide, by decide, ?_, by decide⟩
  intro s bytes e evs
  simp only [Client.requestSend, Atomic.Do]
  cases ht : s.transport.val with
  | nil => exact ⟨_, rfl⟩
  | impl t =>
    simp only []
    rcases runEvents_ends_shut evs { s with sent := s.sent ++ [bytes] } false with
      ⟨p, hp⟩ | ⟨s1, h1, hq⟩
    · rw [hp]; exact ⟨p, rfl⟩
    · rw [h1]
      simp only []
      have hsd : s1.Shutdown = .error Panic.closeOfClosedChannel := by
        simp [Client.Shutdown, hq]
      rw [hsd]
      exact ⟨_, rfl⟩

/-- C14, counterexample. A frame whose decoding fails after the ID was stored
is not dropped: with request 1 in flight on channel 0, the reader loop sends
the container holding the decode error to channel 0, and the loop iteration
leaves it in the buffer of that channel. -/
theorem undecodable_frame_reaches_pending_caller :
    typeErrorFrame.err ≠ none ∧
    oneInFlight.listenRoute typeErrorFrame
      = .ok [(Chan.ref 0,
          { content := [123, 125],
            err := some (Error.unmarshalReceived
              "json: cannot unmarshal number into Go struct field response.method of type string") })] ∧
    oneInFlight.listenRoute typeErrorFrame ≠ .ok [] ∧
    (oneInFlight.listen (Inbound.frame typeErrorFrame)).map
        (fun r => r.1.buffer (Chan.ref 0))
      = .ok [{ content := [123, 125],
               err := some (Error.unmarshalReceived
                 "json: cannot unmarshal number into Go struct field response.method of type string") }] := by
  refine ⟨by decide, by decide, by decide, by decide⟩

/-- C14, as amended. For a frame whose decoding fails, the reader loop builds
a container with the raw bytes and the decode error and routes it by what the
decoder left in the envelope: with a non-empty method to the listeners of that
method in order, with an empty method to the non-nil channel registered under
the ID, and to nothing when there is no such channel. -/
theorem listen_routes_undecodable_frame (s : Client) (f : Frame) (cause : String)
    (hdec : f.err = some cause) :
    listenResult f = { content := f.bytes, err := some (Error.unmarshalReceived cause) } ∧
    (0 < f.msg.Method.length →
      s.listenRoute f = .ok ((s.pushHandlers.val.index f.msg.Method).1.map
        (fun c => (c, listenResult f)))) ∧
    (f.msg.Method = "" →
      (∀ c : Chan, s.handlers.val.find f.msg.ID = some c → c ≠ Chan.nil →
        s.listenRoute f = .ok [(c, listenResult f)]) ∧
      ((∀ c : Chan, s.handlers.val.find f.msg.ID = some c → c = Chan.nil) →
        s.listenRoute f = .ok [])) := by
  refine ⟨by simp [listenResult, hdec], fun hm => listenRoute_push s f hm,
    fun hm => listenRoute_response s f hm⟩

/-- C14 as amended, at concrete inputs: the frame with the type error reaches
the request in flight, and is dropped on a session without pending request. -/
theorem listen_routes_undecodable_frame_witness :
    listenResult typeErrorFrame
      = { content := [123, 125],
          err := some (Error.unmarshalReceived
            "json: cannot unmarshal number into Go struct field response.method of type string") } ∧
    oneInFlight.listenRoute typeErrorFrame = .ok [(Chan.ref 0, listenResult typeErrorFrame)] ∧
    (NewClient mockTransport).listenRoute typeErrorFrame = .ok [] :=
  ⟨(listen_routes_undecodable_frame oneInFlight typeErrorFrame _ rfl).1,
   ((listen_routes_undecodable_frame oneInFlight typeErrorFrame _ rfl).2.2 rfl).1 (Chan.ref 0)
     (by decide) (by decide),
   ((listen_routes_undecodable_frame (NewClient mockTransport) typeErrorFrame _ rfl).2.2 rfl).2
     (by decide)⟩

/-- C15. Shutdown empties the session: on a live session with an installed
transport, `Shutdown` returns, the shutdown signal is set, `Close` has been
called once more, the transport handle holds the nil interface, and the
pending map and the push table have no entries. -/
theorem Shutdown_empties_session (s : Client) (t : TransportImpl) (hq : s.IsShutdown = false)
    (ht : s.transport.val = Transport.impl t) :
    ∃ s1 : Client, s.Shutdown = .ok s1 ∧
      s1.IsShutdown = true ∧
      s1.closeCalls = s.closeCalls + 1 ∧
      s1.transport.val = Transport.nil ∧
      s1.handlers.val.entries = [] ∧
      s1.pushHandlers.val.entries = [] ∧
      (∀ id : Nat, s1.handlers.val.find id = none) ∧
      (∀ method : String, s1.pushHandlers.val.find method = none) := by
  have hq1 : s.quit = false := hq
  refine ⟨_, by simp only [Client.Shutdown, hq1, ht]; rfl, ?_⟩
  simp [Client.IsShutdown, Atomic.Reset, GoType.zero, GoMap.entries, GoMap.find]

/-- C15, at a concrete input: `Shutdown` of a new session. -/
theorem Shutdown_empties_session_witness :
    ∃ s1 : Client, (NewClient mockTransport).Shutdown = .ok s1 ∧
      s1.IsShutdown = true ∧ s1.closeCalls = 1 ∧ s1.transport.val = Transport.nil := by
  obtain ⟨s1, h1, h2, h3, h4, -⟩ :=
    Shutdown_empties_session (NewClient mockTransport)
      { handle := 0, kind := Kind.Ptr, isNil := false } rfl rfl
  exact ⟨s1, h1, h2, h3, h4⟩

/-- C16. Checkpoint validation for a single header, on the model of
`GetBlockHeader` taken from the spec: with a supplied checkpoint height at or
below the requested height, the call fails with `ErrCheckpointHeight` and
leaves the session as it was, so that nothing was handed to the transport. -/
theorem GetBlockHeader_rejects_low_checkpoint (s : Client) (h c : Nat) (env : ReqEnv)
    (hc : c ≤ h) :
    (s.GetBlockHeader h (some c) env).result = .ok (some CallError.ErrCheckpointHeight) ∧
    (s.GetBlockHeader h (some c) env).state = s ∧
    (s.GetBlockHeader h (some c) env).state.sent = s.sent := by
  simp [Client.GetBlockHeader, hc]

/-- C16, at the input of the test: height 200, checkpoint 100. -/
theorem GetBlockHeader_rejects_low_checkpoint_witness :
    ((NewClient mockTransport).GetBlockHeader 200 (some 100) quietEnv).result
      = .ok (some CallError.ErrCheckpointHeight) ∧
    ((NewClient mockTransport).GetBlockHeader 200 (some 100) quietEnv).state.sent = [] :=
  ⟨(GetBlockHeader_rejects_low_checkpoint (NewClient mockTransport) 200 100 quietEnv
     (by decide)).1,
   (GetBlockHeader_rejects_low_checkpoint (NewClient mockTransport) 200 100 quietEnv
     (by decide)).2.2⟩

/-- C17. Checkpoint validation for a range, on the model of `GetBlockHeaders`
taken from the spec: with a count of at least 1 and a supplied checkpoint
height within the requested heights, the call fails with `ErrCheckpointHeight`
and leaves the session as it was, so that nothing was handed to the
transport. -/
theorem GetBlockHeaders_rejects_checkpoint_in_range (s : Client) (start n c : Nat)
    (env : ReqEnv) (hn : 1 ≤ n) (_hlo : start ≤ c) (hhi : c < start + n) :
    (s.GetBlockHeaders start n (some c) env).result
      = .ok (some CallError.ErrCheckpointHeight) ∧
    (s.GetBlockHeaders start n (some c) env).state = s ∧
    (s.GetBlockHeaders start n (some c) env).state.sent = s.sent := by
  have h0 : 0 < n := hn
  simp [Client.GetBlockHeaders, h0, hhi]

/-- C17, at the input of the test: start 100, count 10, checkpoint 105. -/
theorem GetBlockHeaders_rejects_checkpoint_in_range_witness :
    ((NewClient mockTransport).GetBlockHeaders 100 10 (some 105) quietEnv).result
      = .ok (some CallError.ErrCheckpointHeight) ∧
    ((NewClient mockTransport).GetBlockHeaders 100 10 (some 105) quietEnv).state.sent = [] :=
  ⟨(GetBlockHeaders_rejects_checkpoint_in_range (NewClient mockTransport) 100 10 105 quietEnv
     (by decide) (by decide) (by decide)).1,
   (GetBlockHeaders_rejects_checkpoint_in_range (NewClient mockTransport) 100 10 105 quietEnv
     (by decide) (by decide) (by decide)).2.2⟩

/-- C18. Scripthash table round trip, on the model of the subscription manager
taken from the spec: after a successful `Add(sh, addr)`, `GetAddress(sh)` is
`addr` and `GetScripthash(addr)` is `sh`; after a successful `Remove(sh)` or
`RemoveAddress(addr)` that follows, both lookups fail with not-found, `SH()`
does not contain `sh`, and `SH()` is empty if `sh` was the only script hash. -/
theorem scripthash_table_round_trip (sub : ScripthashSubscription) (s : Client)
    (sh addr : String) (env : ReqEnv)
    (hadd : (sub.Add s sh addr env).result = .ok none) :
    (sub.Add s sh addr env).sub.GetAddress sh = .ok addr ∧
    (sub.Add s sh addr env).sub.GetScripthash addr = .ok sh ∧
    (∀ (s1 : Client) (env1 : ReqEnv),
      ((sub.Add s sh addr env).sub.Remove s1 sh env1).result = .ok none →
      ((sub.Add s sh addr env).sub.Remove s1 sh env1).sub.GetAddress sh
        = .error CallError.notFound ∧
      ((sub.Add s sh addr env).sub.Remove s1 sh env1).sub.GetScripthash addr
        = .error CallError.notFound ∧
      sh ∉ ((sub.Add s sh addr env).sub.Remove s1 sh env1).sub.SH ∧
      ((sub.Add s sh addr env).sub.SH = [sh] →
        ((sub.Add s sh addr env).sub.Remove s1 sh env1).sub.SH = [])) ∧
    (∀ (s1 : Client) (env1 : ReqEnv),
      ((sub.Add s sh addr env).sub.RemoveAddress s1 addr env1).result = .ok none →
      ((sub.Add s sh addr env).sub.RemoveAddress s1 addr env1).sub.GetAddress sh
        = .error CallError.notFound ∧
      ((sub.Add s sh addr env).sub.RemoveAddress s1 addr env1).sub.GetScripthash addr
        = .error CallError.notFound ∧
      sh ∉ ((sub.Add s sh addr env).sub.RemoveAddress s1 addr env1).sub.SH ∧
      ((sub.Add s sh addr env).sub.SH = [sh] →
        ((sub.Add s sh addr env).sub.RemoveAddress s1 addr env1).sub.SH = [])) := by
  rw [Add_ok hadd]
  have hl1 : tableLookup (tableInsert sub.addressOf sh addr) sh = some addr := by
    rw [tableLookup_insert]; simp
  have hl2 : tableLookup (tableInsert sub.scripthashOf addr sh) addr = some sh := by
    rw [tableLookup_insert]; simp
  refine ⟨by simp [ScripthashSubscription.GetAddress, hl1],
    by simp [ScripthashSubscription.GetScripthash, hl2], ?_, ?_⟩
  · intro s1 env1 hrem
    rw [Remove_ok hrem]
    simp only [ScripthashSubscription.forget, hl1, ScripthashSubscription.GetAddress,
      ScripthashSubscription.GetScripthash, ScripthashSubscription.SH, tableLookup_erase_self]
    exact ⟨trivial, trivial, not_mem_keys_erase _ _, fun h => by rw [erase_only_key _ _ h]; rfl⟩
  · intro s1 env1 hrem
    obtain ⟨sh1, h1, h2⟩ := RemoveAddress_ok hrem
    rw [h2]
    rw [hl2] at h1
    simp only [Option.some.injEq] at h1
    subst h1
    simp only [ScripthashSubscription.GetAddress,
      ScripthashSubscription.GetScripthash, ScripthashSubscription.SH, tableLookup_erase_self]
    exact ⟨trivial, trivial, not_mem_keys_erase _ _, fun h => by rw [erase_only_key _ _ h]; rfl⟩

/-- C18, at the input of the test: one script hash on a new manager. -/
theorem scripthash_table_round_trip_witness :
    (ScripthashSubscription.new.Add (NewClient mockTransport) "scripthash" "address"
      (answeredEnv 1)).result = .ok none ∧
    (ScripthashSubscription.new.Add (NewClient mockTransport) "scripthash" "address"
      (answeredEnv 1)).sub.GetAddress "scripthash" = .ok "address" ∧
    (ScripthashSubscription.new.Add (NewClient mockTransport) "scripthash" "address"
      (answeredEnv 1)).sub.GetScripthash "address" = .ok "scripthash" ∧
    ((ScripthashSubscription.new.Add (NewClient mockTransport) "scripthash" "address"
      (answeredEnv 1)).sub.Remove
        (ScripthashSubscription.new.Add (NewClient mockTransport) "scripthash" "address"
          (answeredEnv 1)).state "scripthash" (answeredEnv 2)).sub.SH = [] :=
  ⟨by decide,
   (scripthash_table_round_trip ScripthashSubscription.new (NewClient mockTransport)
     "scripthash" "address" (answeredEnv 1) (by decide)).1,
   (scripthash_table_round_trip ScripthashSubscription.new (NewClient mockTransport)
     "scripthash" "address" (answeredEnv 1) (by decide)).2.1,
   ((scripthash_table_round_trip ScripthashSubscription.new (NewClient mockTransport)
     "scripthash" "address" (answeredEnv 1) (by decide)).2.2.1 _ (answeredEnv 2)
       (by decide)).2.2.2 (by decide)⟩

/-- C19. `ServerPeers` converts the decoded peer list entry by entry: its peers
are, in order, the peers of those entries that are 3-element lists of two
strings and a list, every other entry being skipped, and the error is the one
`request` returned; the feature slice of a peer has the length of the entry's
feature list and holds each string feature at its own index; a list of
well-formed entries gives as many peers, in the same order. -/
theorem ServerPeers_converts_entry_by_entry (s : Client) (env : ReqEnv)
    (decode : Bytes → List (List JVal)) :
    (s.ServerPeers env decode).peers
      = (((s.request "server.peers.subscribe" [] true env).sink.map decode).getD []).filterMap
          peerOfEntry ∧
    (s.ServerPeers env decode).result
      = (s.request "server.peers.subscribe" [] true env).result ∧
    (∀ entries : List (List JVal), convertPeers entries = entries.filterMap peerOfEntry) ∧
    (∀ (e : List JVal) (p : Peer), peerOfEntry e = some p ↔
      ∃ (addr host : String) (featsI : List JVal),
        e = [JVal.string addr, JVal.string host, JVal.array featsI] ∧
        p = { Addr := addr, Host := host, Feats := featsI.map featureText }) ∧
    (∀ featsI : List JVal, (peerFeats featsI).length = featsI.length ∧
      ∀ (i : Nat) (feat : String), featsI[i]? = some (JVal.string feat) →
        (peerFeats featsI)[i]? = some feat) ∧
    (∀ entries : List (List JVal), (∀ e ∈ entries, (peerOfEntry e).isSome = true) →
      (convertPeers entries).length = entries.length ∧
      (convertPeers entries).map some = entries.map peerOfEntry) := by
  have hconv : ∀ entries : List (List JVal),
      convertPeers entries = entries.filterMap peerOfEntry := by
    intro entries
    simp [convertPeers, foldl_peersStep]
  refine ⟨by simp [Client.ServerPeers, hconv], rfl, hconv, ?_, ?_, ?_⟩
  · intro e p
    constructor
    · intro h
      match e, h with
      | [JVal.string addr, JVal.string host, JVal.array featsI], h =>
        simp only [peerOfEntry, Option.some.injEq] at h
        exact ⟨addr, host, featsI, rfl, h.symm⟩
    · rintro ⟨addr, host, featsI, rfl, rfl⟩
      rfl
  · intro featsI
    rw [peerFeats_eq]
    refine ⟨by simp, ?_⟩
    intro i feat h
    simp [List.getElem?_map, h, featureText]
  · intro entries hall
    rw [hconv]
    induction entries with
    | nil => simp
    | cons e rest ih =>
      have he := hall e (List.mem_cons_self _ _)
      have hrest := ih (fun x hx => hall x (List.mem_cons_of_mem _ hx))
      obtain ⟨p, hp⟩ := Option.isSome_iff_exists.mp he
      simp [List.filterMap_cons, hp, hrest.1, hrest.2]

/-- C19, at concrete inputs: the entry of the test, an entry that is too short
and an entry with features that are not strings. -/
theorem ServerPeers_converts_entry_by_entry_witness :
    convertPeers samplePeers
      = [{ Addr := "peer1", Host := "v1.4", Feats := ["p1"] },
         { Addr := "peer3", Host := "v1.4", Feats := ["", "t50001", ""] }] ∧
    convertPeers samplePeers = samplePeers.filterMap peerOfEntry :=
  ⟨by decide,
   (ServerPeers_converts_entry_by_entry (NewClient mockTransport) (answeredEnv 1)
     (fun _ => samplePeers)).2.2.1 samplePeers⟩

/-- C20, the code at a failing input. `listenPush` assigns into the push table
without testing it for nil: on a session whose push table was reset, and so
after every `Shutdown`, it panics with assignment to entry in nil map. On a
live session it returns a fresh channel with an empty buffer, appended at the
end of the list of its method, and the list of every other method is as
before. -/
theorem listenPush_panics_after_Shutdown :
    (∀ (s : Client) (method : String),
      ({ s with pushHandlers := MakeAtomic GoMap.nil } : Client).listenPush method
        = .error Panic.assignmentToEntryInNilMap) ∧
    (∀ (s : Client) (method : String),
      ∃ p : Panic, (s.Shutdown >>= fun s1 => s1.listenPush method) = .error p) ∧
    shutDownSession.listenPush "blockchain.headers.subscribe"
      = .error Panic.assignmentToEntryInNilMap ∧
    (∀ (s : Client) (es : List (String × List Chan)) (method : String),
      ∃ s1 : Client,
        ({ s with pushHandlers := MakeAtomic (GoMap.mk es) } : Client).listenPush method
          = .ok (s1, Chan.ref s.chans.length) ∧
        s1.buffer (Chan.ref s.chans.length) = [] ∧
        (s1.pushHandlers.val.index method).1
          = ((GoMap.mk es).index method).1 ++ [Chan.ref s.chans.length] ∧
        ∀ other : String, other ≠ method →
          (s1.pushHandlers.val.index other).1 = ((GoMap.mk es).index other).1) := by
  refine ⟨?_, ?_, by decide, ?_⟩
  · intro s method
    simp [Client.listenPush, Client.makeChan, Atomic.Change, GoMap.assign, MakeAtomic]
  · intro s method
    cases hq : s.quit
    · cases ht : s.transport.val <;>
        simp [Client.Shutdown, hq, ht, bind, Except.bind, Client.listenPush, Client.makeChan,
          Atomic.Change, GoMap.assign, Atomic.Reset, GoType.zero]
    · simp [Client.Shutdown, hq, bind, Except.bind]
  · intro s es method
    have hl := @listenPush_live ({ s with pushHandlers := MakeAtomic (GoMap.mk es) } : Client)
      es method rfl
    refine ⟨_, hl, ?_, ?_, ?_⟩
    · simp [Client.buffer, List.getD_eq_getElem?_getD]
    · simp only [MakeAtomic, index_assign, if_true]
    · intro other ho
      simp only [MakeAtomic, index_assign, ho, if_false]

/-- C21, counterexample. With the interface type `Transport` as result type,
the projection that returns the held value and true, applied to a handle that
holds the nil interface (as the handle of a session after `Shutdown` does),
returns (nil, true); the nil `any` fails the type assertion in `Get`, which
returns (nil, false). -/
theorem Get_false_on_nil_interface_result :
    heldTransport (MakeAtomic Transport.nil).val = .ok (Transport.nil, true) ∧
    Get (MakeAtomic Transport.nil) heldTransport = .ok (Transport.nil, false) ∧
    Get (MakeAtomic Transport.nil) heldTransport ≠ .ok (Transport.nil, true) ∧
    heldTransport shutDownSession.transport.val = .ok (Transport.nil, true) ∧
    Get shutDownSession.transport heldTransport = .ok (Transport.nil, false) := by
  refine ⟨rfl, by decide, by decide, rfl, by decide⟩

/-- C21, as amended. `Get` returns the projection's result unless that result
is the nil value of an interface type: if the projection returns (r, true) and
`r` is not a nil interface, `Get` returns (r, true); if it returns (r, true)
with `r` a nil interface, `Get` returns the zero value of `R` and false; if it
returns (_, false), `Get` returns the zero value of `R` and false. `Get`
yields no new container: the held value is not written. -/
theorem Get_returns_projection_result {T R : Type} [GoType R] (a : Atomic T)
    (f : T → Go (R × Bool)) :
    (∀ r : R, f a.val = .ok (r, true) → GoType.isNilInterface r = false →
      Get a f = .ok (r, true)) ∧
    (∀ r : R, f a.val = .ok (r, true) → GoType.isNilInterface r = true →
      Get a f = .ok (GoType.zero, false)) ∧
    (∀ r : R, f a.val = .ok (r, false) → Get a f = .ok (GoType.zero, false)) := by
  refine ⟨?_, ?_, ?_⟩
  · intro r h hn
    simp [Get, Atomic.Get, h, toAny, hn]
  · intro r h hn
    simp [Get, Atomic.Get, h, toAny, hn]
  · intro r h
    simp [Get, Atomic.Get, h]

/-- C21 as amended, at concrete inputs: a channel found in a pending map, a
key that is not in the map, an installed transport and the nil transport. -/
theorem Get_returns_projection_result_witness :
    Get (MakeAtomic (GoMap.mk [(1, Chan.ref 0)])) pendingOne = .ok (Chan.ref 0, true) ∧
    Get (MakeAtomic (GoMap.mk [(2, Chan.ref 0)])) pendingOne = .ok (Chan.nil, false) ∧
    Get (MakeAtomic mockTransport) heldTransport = .ok (mockTransport, true) ∧
    Get (MakeAtomic Transport.nil) heldTransport = .ok (Transport.nil, false) :=
  ⟨(Get_returns_projection_result (MakeAtomic (GoMap.mk [(1, Chan.ref 0)])) pendingOne).1
     (Chan.ref 0) rfl rfl,
   (Get_returns_projection_result (MakeAtomic (GoMap.mk [(2, Chan.ref 0)])) pendingOne).2.2
     Chan.nil rfl,
   (Get_returns_projection_result (MakeAtomic mockTransport) heldTransport).1
     mockTransport rfl rfl,
   (Get_returns_projection_result (MakeAtomic Transport.nil) heldTransport).2.1
     Transport.nil rfl rfl⟩

end Electrum
